import Mathlib

/-!
Verification of the paginated search engine (`SearchClient` in
`src/sidebar/search-client.js`).

The engine is embedded shallowly:

* machine state (`_canceled`, `_results`, `_resultCount`) becomes the
  `EngineState` structure and is threaded explicitly;
* the injected search function becomes a pure function
  `SearchQuery → Except String SearchResult` (the promise either resolves
  with a result page or rejects with an error);
* the recursive async loop `_getBatch` becomes a fuel-indexed recursion
  `getBatchLoop`; `none` means the fuel ran out before the session reached
  its terminal event;
* event emission becomes an explicit trace (`List Event`);
* cancellation can interleave with the loop only at the single suspension
  point (while a fetch is in flight), so it is modelled by a schedule
  `cancelDuring : Nat → Bool` telling, for each fetch index, whether
  `cancel()` runs while that fetch is in flight;
* JavaScript truthiness of cursor strings (`if (searchAfter)`,
  `nextSearchAfter` truthy) is modelled by `optTruthy`: a string value is
  truthy exactly when it is nonempty; `null`/`undefined` are `Option.none`;
* JavaScript truthiness of the `maxResults` number (`this._maxResults && …`)
  is modelled by `maxResultsTruthy`: `null` and `0` are falsy.
-/

namespace SearchClientSpec

/-- Sort field used both for ordering and as the pagination cursor field
(the JS typedef admits the field names `created` and `updated`). -/
inductive SortField
  | created
  | updated
deriving DecidableEq, Repr

/-- Sort direction (`asc` or `desc`). -/
inductive SortDir
  | asc
  | desc
deriving DecidableEq, Repr

/-- An annotation record, as far as the engine inspects it: the engine only
reads the field named by its configured sort field (`created` or `updated`,
string-valued, e.g. a date string); `data` stands for the rest of the record,
carried through opaquely. -/
structure Item where
  created : String
  updated : String
  data : String := ""
deriving DecidableEq, Repr

/-- Field access `item[sortBy]` from the JS code. -/
def Item.getField (it : Item) : SortField → String
  | SortField.created => it.created
  | SortField.updated => it.updated

/-- Constructor options of `SearchClient`, with their default values. -/
structure Config where
  chunkSize : Nat := 200
  separateReplies : Bool := true
  incremental : Bool := true
  maxResults : Option Nat := none
  sortBy : SortField := SortField.created
  sortOrder : SortDir := SortDir.asc
deriving DecidableEq, Repr

/-- The caller-supplied query object passed to `get`.  Thanks to the object
spread `{...defaults, ...query}` the caller's fields override the engine's
default paging parameters, so each of those parameters appears here as an
optional override; `rest` stands for the caller's opaque filter criteria,
forwarded verbatim. -/
structure CallerQuery where
  limit : Option Nat := none
  sort : Option SortField := none
  order : Option SortDir := none
  separate_replies : Option Bool := none
  rest : String := ""
deriving DecidableEq, Repr

/-- The physical request sent to the search function. -/
structure SearchQuery where
  limit : Nat
  sort : SortField
  order : SortDir
  separate_replies : Bool
  search_after : Option String := none
  rest : String := ""
deriving DecidableEq, Repr

/-- JS truthiness for an optional string (`null`/`undefined` and `""` are
falsy). -/
def optTruthy : Option String → Bool
  | none => false
  | some s => s ≠ ""

/-- Build the physical request for one batch: merge the default paging
parameters with the caller's query (caller wins), then attach `search_after`
when a truthy cursor was supplied (`if (searchAfter) …`). -/
def buildQuery (cfg : Config) (query : CallerQuery) (searchAfter : Option String) :
    SearchQuery :=
  let searchQuery : SearchQuery :=
    { limit := query.limit.getD cfg.chunkSize
      sort := query.sort.getD cfg.sortBy
      order := query.order.getD cfg.sortOrder
      separate_replies := query.separate_replies.getD cfg.separateReplies
      search_after := none
      rest := query.rest }
  if optTruthy searchAfter then { searchQuery with search_after := searchAfter }
  else searchQuery

/-- One page returned by the search function: `total` is the overall match
count, `rows` the page's top-level annotations, `replies` the optional
separate replies array. -/
structure SearchResult where
  total : Nat
  rows : List Item
  replies : Option (List Item) := none
deriving DecidableEq, Repr

/-- The four event kinds emitted by the engine. -/
inductive Event
  | resultCount (total : Nat)
  | results (items : List Item)
  | error (message : String)
  | endEvent
deriving DecidableEq, Repr

/-- Mutable instance state of `SearchClient`: `_canceled`, `_results`,
`_resultCount`, as initialised by the constructor. -/
structure EngineState where
  canceled : Bool := false
  results : List Item := []
  resultCount : Option Nat := none
deriving DecidableEq, Repr

/-- The state set up by the constructor. -/
def initialState : EngineState := {}

/-- JS truthiness of the `maxResults` option (`this._maxResults && …`):
`null` and `0` are falsy. -/
def maxResultsTruthy : Option Nat → Bool
  | none => false
  | some m => m ≠ 0

/-- The size-guard condition `this._maxResults && results.total > this._maxResults`. -/
def sizeGuardFires (maxResults : Option Nat) (total : Nat) : Bool :=
  maxResultsTruthy maxResults && decide (total > maxResults.getD 0)

/-- Message of the error constructed when the size guard fires. -/
def maxResultsMessage : String :=
  "Results size exceeds maximum allowed annotations"

/-- The combined chunk of one page: `results.rows.concat(results.replies || [])`. -/
def chunkOf (page : SearchResult) : List Item :=
  page.rows ++ page.replies.getD []

/-- The candidate cursor for the next batch:
`chunk.length > 0 ? chunk[chunk.length - 1][this._sortBy] : null`. -/
def nextSearchAfterOf (cfg : Config) (chunk : List Item) : Option String :=
  if chunk.length > 0 then chunk.getLast?.map (fun it => it.getField cfg.sortBy)
  else none

/-- Record the result count on first encountering it (`if (this._resultCount === null)`),
returning the updated state and the events emitted. -/
def recordCount (st : EngineState) (total : Nat) : EngineState × List Event :=
  match st.resultCount with
  | none => ({ st with resultCount := some total }, [Event.resultCount total])
  | some _ => (st, [])

/-- Deliver a chunk: emit it immediately in incremental mode, otherwise append
it to the accumulated results. -/
def deliverChunk (cfg : Config) (st : EngineState) (chunk : List Item) :
    EngineState × List Event :=
  if cfg.incremental then (st, [Event.results chunk])
  else ({ st with results := st.results ++ chunk }, [])

/-- Processing of one resolved fetch (the body of `_getBatch` after the
`await`, including the `catch` clause).  Returns the updated state, the
events emitted by this resolution, and `some cursor` when the loop recurses
into the next batch (`none` when the session is over or was canceled). -/
def processBatch (cfg : Config) (st : EngineState)
    (res : Except String SearchResult) :
    EngineState × List Event × Option String :=
  if st.canceled then (st, [], none)
  else
    match res with
    | Except.error err => (st, [Event.error err, Event.endEvent], none)
    | Except.ok page =>
      if sizeGuardFires cfg.maxResults page.total then
        (st, [Event.error maxResultsMessage, Event.endEvent], none)
      else
        let chunk := chunkOf page
        let rc := recordCount st page.total
        let dl := deliverChunk cfg rc.1 chunk
        let nextBatchAvailable := chunk.length == cfg.chunkSize
        let nextSearchAfter := nextSearchAfterOf cfg chunk
        if nextBatchAvailable && optTruthy nextSearchAfter then
          (dl.1, rc.2 ++ dl.2, nextSearchAfter)
        else
          let finalEvents :=
            if cfg.incremental then ([] : List Event)
            else [Event.results dl.1.results]
          (dl.1, rc.2 ++ dl.2 ++ finalEvents ++ [Event.endEvent], none)

/-- The recursive fetch loop `_getBatch`, driven by fuel.  `i` numbers the
fetches of the session; `cancelDuring i` tells whether `cancel()` runs while
fetch `i` is in flight (the only point where it can interleave).  The result
is `none` when the fuel ran out before the session terminated, otherwise the
final state, the emitted trace (including the `end` emitted synchronously by
an interleaved `cancel()`), and the list of physical requests issued. -/
def getBatchLoop (cfg : Config) (searchFn : SearchQuery → Except String SearchResult)
    (query : CallerQuery) (cancelDuring : Nat → Bool) :
    Nat → Nat → EngineState → Option String →
    Option (EngineState × List Event × List SearchQuery)
  | 0, _, _, _ => none
  | fuel + 1, i, st, searchAfter =>
    let req := buildQuery cfg query searchAfter
    let res := searchFn req
    let stepCancel :=
      if cancelDuring i then ({ st with canceled := true }, [Event.endEvent])
      else (st, ([] : List Event))
    let step := processBatch cfg stepCancel.1 res
    match step.2.2 with
    | none => some (step.1, stepCancel.2 ++ step.2.1, [req])
    | some cursor =>
      match getBatchLoop cfg searchFn query cancelDuring fuel (i + 1) step.1 (some cursor) with
      | none => none
      | some (stFinal, eventsRest, reqsRest) =>
        some (stFinal, stepCancel.2 ++ step.2.1 ++ eventsRest, req :: reqsRest)

/-- The `get(query)` method: reset `_results` and `_resultCount` (but not
`_canceled`) and start the batch loop with no cursor. -/
def get (cfg : Config) (searchFn : SearchQuery → Except String SearchResult)
    (query : CallerQuery) (cancelDuring : Nat → Bool) (fuel : Nat)
    (st : EngineState) : Option (EngineState × List Event × List SearchQuery) :=
  getBatchLoop cfg searchFn query cancelDuring fuel 0
    { st with results := [], resultCount := none } none

/-- The `cancel()` method: set the canceled flag and synchronously emit `end`. -/
def cancel (st : EngineState) : EngineState × List Event :=
  ({ st with canceled := true }, [Event.endEvent])

/-- The schedule in which `cancel()` is never called. -/
def noCancel : Nat → Bool := fun _ => false

/-- A full session: `get(query)` on a freshly constructed client, with no
cancellation. -/
def runSession (cfg : Config) (searchFn : SearchQuery → Except String SearchResult)
    (query : CallerQuery) (fuel : Nat) :
    Option (EngineState × List Event × List SearchQuery) :=
  get cfg searchFn query noCancel fuel initialState

/-! ### Trace observations -/

/-- Recognise a `results` event. -/
def isResultsEvent : Event → Bool
  | Event.results _ => true
  | _ => false

/-- Recognise an `error` event. -/
def isErrorEvent : Event → Bool
  | Event.error _ => true
  | _ => false

/-- Recognise the `end` event. -/
def isEndEvent : Event → Bool
  | Event.endEvent => true
  | _ => false

/-- Recognise a `resultCount` event. -/
def isResultCountEvent : Event → Bool
  | Event.resultCount _ => true
  | _ => false

/-- Number of events of a given kind in a trace. -/
def countEvents (p : Event → Bool) (events : List Event) : Nat :=
  (events.filter p).length

/-- The payloads of the `results` events of a trace, in order. -/
def resultsPayloads (events : List Event) : List (List Item) :=
  events.filterMap fun e =>
    match e with
    | Event.results items => some items
    | _ => none

/-- Whether a trace contains an `error` event. -/
def hasErrorEvent (events : List Event) : Bool :=
  events.any isErrorEvent

/-- Admissible tail of a session trace after the `results` section: an
optional `error` immediately followed by the terminal `end`, and nothing
after it. -/
def wfTail : List Event → Bool
  | [Event.endEvent] => true
  | [Event.error _, Event.endEvent] => true
  | _ => false

/-- Admissible session trace after the optional leading `resultCount`: a
(possibly empty) run of `results` events followed by an admissible tail. -/
def wfResultsSeq : List Event → Bool
  | Event.results _ :: rest => wfResultsSeq rest
  | events => wfTail events

/-- Admissible completed session trace: at most one `resultCount` (first),
then `results` events, then an optional `error` immediately followed by
exactly one terminal `end`. -/
def wellFormedTrace : List Event → Bool
  | Event.resultCount _ :: rest => wfResultsSeq rest
  | events => wfResultsSeq events

/-! ### The continuation condition of the claims

`contCursor` states, in the claims' words, when the engine fetches a next
page after a delivered page: the page must have been delivered (the fetch
succeeded and the size guard did not fire), the combined chunk must have
length equal to the configured `chunkSize`, and the value of the configured
sort field on the last item of the chunk must be truthy; that value is then
the cursor of the next request. -/

/-- The cursor with which a next page is fetched after the response `res`,
or `none` when no next page is fetched. -/
def contCursor (cfg : Config) (res : Except String SearchResult) : Option String :=
  match res with
  | Except.error _ => none
  | Except.ok page =>
    if sizeGuardFires cfg.maxResults page.total then none
    else
      let chunk := chunkOf page
      let nextSearchAfter := nextSearchAfterOf cfg chunk
      if chunk.length == cfg.chunkSize && optTruthy nextSearchAfter then nextSearchAfter
      else none

/-- The request list of a session forms a chain: after each request whose
response satisfies the continuation condition the very next request is the
merged query carrying `search_after` equal to the derived cursor, and the
last request's response does not satisfy the continuation condition. -/
def reqChain (cfg : Config) (searchFn : SearchQuery → Except String SearchResult)
    (query : CallerQuery) : List SearchQuery → Prop
  | [] => True
  | [req] => contCursor cfg (searchFn req) = none
  | req :: req' :: rest =>
    (∃ cursor, contCursor cfg (searchFn req) = some cursor ∧
      req' = buildQuery cfg query (some cursor) ∧
      req'.search_after = some cursor) ∧
    reqChain cfg searchFn query (req' :: rest)

/-! ### The event sink with possibly-throwing handlers (for listener faults)

The engine emits events by synchronously invoking the subscribed handlers.
A handler may itself throw; because every emission of `_getBatch` except the
two in the `catch` clause happens inside the `try` block, such an exception
is caught by the same `catch` clause that handles search-function failures.
`listener e = some ex` means the handler of event `e` throws `ex`;
`listener e = none` means emission of `e` completes normally. -/

/-- Emit a sequence of events, stopping at the first handler exception.
Returns the events whose emission began, and the exception if one was
thrown. -/
def emitSeq (listener : Event → Option String) : List Event → List Event × Option String
  | [] => ([], none)
  | e :: rest =>
    match listener e with
    | some ex => ([e], some ex)
    | none =>
      let tail := emitSeq listener rest
      (e :: tail.1, tail.2)

/-- The `catch` clause of `_getBatch`: if not canceled, emit `error` then
`end`.  Exceptions thrown by the handlers of these two emissions are not
caught anywhere; the returned flag records whether such an exception escaped
(as an unhandled promise rejection). -/
def runCatch (listener : Event → Option String) (st : EngineState) (err : String) :
    List Event × Bool :=
  if st.canceled then ([], false)
  else
    match listener (Event.error err) with
    | some _ => ([Event.error err], true)
    | none =>
      match listener Event.endEvent with
      | some _ => ([Event.error err, Event.endEvent], true)
      | none => ([Event.error err, Event.endEvent], false)

/-- The fetch loop with an instrumented event sink, without cancellation
(this variant is used to study listener faults).  Returns the final state,
the trace, and whether a handler exception escaped uncaught. -/
def getBatchLoopL (cfg : Config) (searchFn : SearchQuery → Except String SearchResult)
    (listener : Event → Option String) (query : CallerQuery) :
    Nat → EngineState → Option String → Option (EngineState × List Event × Bool)
  | 0, _, _ => none
  | fuel + 1, st, searchAfter =>
    let req := buildQuery cfg query searchAfter
    match searchFn req with
    | Except.error err =>
      if st.canceled then some (st, [], false)
      else
        let caught := runCatch listener st err
        some (st, caught.1, caught.2)
    | Except.ok page =>
      if st.canceled then some (st, [], false)
      else if sizeGuardFires cfg.maxResults page.total then
        let tryEmit := emitSeq listener [Event.error maxResultsMessage, Event.endEvent]
        match tryEmit.2 with
        | some ex =>
          let caught := runCatch listener st ex
          some (st, tryEmit.1 ++ caught.1, caught.2)
        | none => some (st, tryEmit.1, false)
      else
        let chunk := chunkOf page
        let rc := recordCount st page.total
        let dl := deliverChunk cfg rc.1 chunk
        let pageEmit := emitSeq listener (rc.2 ++ dl.2)
        match pageEmit.2 with
        | some ex =>
          let caught := runCatch listener dl.1 ex
          some (dl.1, pageEmit.1 ++ caught.1, caught.2)
        | none =>
          let nextBatchAvailable := chunk.length == cfg.chunkSize
          let nextSearchAfter := nextSearchAfterOf cfg chunk
          if nextBatchAvailable && optTruthy nextSearchAfter then
            match getBatchLoopL cfg searchFn listener query fuel dl.1 nextSearchAfter with
            | none => none
            | some (stFinal, eventsRest, escaped) =>
              some (stFinal, pageEmit.1 ++ eventsRest, escaped)
          else
            let finalPlanned :=
              (if cfg.incremental then ([] : List Event)
               else [Event.results dl.1.results]) ++ [Event.endEvent]
            let finalEmit := emitSeq listener finalPlanned
            match finalEmit.2 with
            | some ex =>
              let caught := runCatch listener dl.1 ex
              some (dl.1, pageEmit.1 ++ finalEmit.1 ++ caught.1, caught.2)
            | none => some (dl.1, pageEmit.1 ++ finalEmit.1, false)

/-- A full session against the instrumented event sink: `get(query)` on a
freshly constructed client. -/
def runSessionL (cfg : Config) (searchFn : SearchQuery → Except String SearchResult)
    (listener : Event → Option String) (query : CallerQuery) (fuel : Nat) :
    Option (EngineState × List Event × Bool) :=
  getBatchLoopL cfg searchFn listener query fuel initialState none

/-- The exception thrown by the handler of the first event of the trace
whose handler throws, if any. -/
def firstThrown (listener : Event → Option String) : List Event → Option String
  | [] => none
  | e :: rest =>
    match listener e with
    | some ex => some ex
    | none => firstThrown listener rest

/-! ### Concrete fixtures used in counterexamples and witnesses -/

/-- A sample annotation. -/
def itemOne : Item := { created := "2024-01-01", updated := "2024-01-10" }

/-- A second sample annotation. -/
def itemTwo : Item := { created := "2024-01-02", updated := "2024-01-11" }

/-- A third sample annotation. -/
def itemThree : Item := { created := "2024-01-03", updated := "2024-01-12" }

/-- A caller query with no overrides. -/
def emptyQuery : CallerQuery := {}

/-- A caller query that supplies its own `limit` of one. -/
def limitOneQuery : CallerQuery := { limit := some 1 }

/-- Page size two, incremental (the defaults otherwise). -/
def cfgTwo : Config := { chunkSize := 2 }

/-- Page size one, incremental. -/
def cfgOne : Config := { chunkSize := 1 }

/-- Page size one, batch mode. -/
def cfgOneBatch : Config := { chunkSize := 1, incremental := false }

/-- Page size two with `maxResults = 0`. -/
def cfgMaxZero : Config := { chunkSize := 2, maxResults := some 0 }

/-- Page size two with `maxResults = 2`. -/
def cfgMaxTwo : Config := { chunkSize := 2, maxResults := some 2 }

/-- Search function serving three items in pages of two: the worked example
of the design document. -/
def fnThreeItems : SearchQuery → Except String SearchResult := fun req =>
  match req.search_after with
  | none => Except.ok { total := 3, rows := [itemOne, itemTwo] }
  | some _ => Except.ok { total := 3, rows := [itemThree] }

/-- Search function that always fails. -/
def fnFail : SearchQuery → Except String SearchResult := fun _ =>
  Except.error "network failure"

/-- Search function serving one full page of size one, then failing on the
second request. -/
def fnPageThenFail : SearchQuery → Except String SearchResult := fun req =>
  match req.search_after with
  | none => Except.ok { total := 2, rows := [itemOne] }
  | some _ => Except.error "boom"

/-- Search function with a single short page. -/
def fnOneShortPage : SearchQuery → Except String SearchResult := fun _ =>
  Except.ok { total := 1, rows := [itemOne] }

/-- Search function that always returns a full page of size one: an unbounded
result set. -/
def fnUnbounded : SearchQuery → Except String SearchResult := fun _ =>
  Except.ok { total := 5, rows := [itemOne] }

/-- Search function that honours the requested `limit`. -/
def fnHonoursLimit : SearchQuery → Except String SearchResult := fun req =>
  Except.ok { total := 10, rows := List.take req.limit [itemOne, itemTwo] }

/-- Cancellation schedule in which `cancel()` runs while fetch 1 is in
flight. -/
def cancelDuringSecondFetch : Nat → Bool := fun i => i == 1

/-- Event sink whose `results` handler throws. -/
def throwingResultsListener : Event → Option String := fun e =>
  match e with
  | Event.results _ => some "listener exception"
  | _ => none

/-! ### Lemmas about the building blocks -/

theorem recordCount_fst_canceled (st : EngineState) (total : Nat) :
    (recordCount st total).1.canceled = st.canceled := by
  cases h : st.resultCount <;> simp [recordCount, h]

theorem recordCount_fst_isSome (st : EngineState) (total : Nat) :
    ((recordCount st total).1.resultCount).isSome = true := by
  cases h : st.resultCount <;> simp [recordCount, h]

theorem recordCount_of_none (st : EngineState) (total : Nat)
    (h : st.resultCount = none) :
    recordCount st total = ({ st with resultCount := some total },
      [Event.resultCount total]) := by
  simp [recordCount, h]

theorem recordCount_of_some (st : EngineState) (total t : Nat)
    (h : st.resultCount = some t) :
    recordCount st total = (st, []) := by
  simp [recordCount, h]

theorem deliverChunk_fst_canceled (cfg : Config) (st : EngineState)
    (chunk : List Item) :
    (deliverChunk cfg st chunk).1.canceled = st.canceled := by
  cases h : cfg.incremental <;> simp [deliverChunk, h]

theorem deliverChunk_fst_resultCount (cfg : Config) (st : EngineState)
    (chunk : List Item) :
    (deliverChunk cfg st chunk).1.resultCount = st.resultCount := by
  cases h : cfg.incremental <;> simp [deliverChunk, h]

theorem deliverChunk_of_incremental (cfg : Config) (st : EngineState)
    (chunk : List Item) (h : cfg.incremental = true) :
    deliverChunk cfg st chunk = (st, [Event.results chunk]) := by
  simp [deliverChunk, h]

theorem deliverChunk_of_batch (cfg : Config) (st : EngineState)
    (chunk : List Item) (h : cfg.incremental = false) :
    deliverChunk cfg st chunk = ({ st with results := st.results ++ chunk }, []) := by
  simp [deliverChunk, h]

/-! ### Lemmas about event counting -/

theorem countEvents_nil (p : Event → Bool) : countEvents p [] = 0 := rfl

theorem countEvents_cons_pos {p : Event → Bool} {e : Event} (evs : List Event)
    (h : p e = true) : countEvents p (e :: evs) = countEvents p evs + 1 := by
  simp [countEvents, List.filter_cons, h]

theorem countEvents_cons_neg {p : Event → Bool} {e : Event} (evs : List Event)
    (h : p e = false) : countEvents p (e :: evs) = countEvents p evs := by
  simp [countEvents, List.filter_cons, h]

theorem countEvents_append (p : Event → Bool) (a b : List Event) :
    countEvents p (a ++ b) = countEvents p a + countEvents p b := by
  simp [countEvents, List.filter_append]

theorem countEvents_eq_zero {p : Event → Bool} {evs : List Event} :
    countEvents p evs = 0 ↔ ∀ e ∈ evs, p e = false := by
  simp [countEvents, List.length_eq_zero, List.filter_eq_nil_iff]

theorem hasErrorEvent_nil : hasErrorEvent [] = false := rfl

theorem hasErrorEvent_cons (e : Event) (evs : List Event) :
    hasErrorEvent (e :: evs) = (isErrorEvent e || hasErrorEvent evs) := by
  simp [hasErrorEvent]

theorem hasErrorEvent_append (a b : List Event) :
    hasErrorEvent (a ++ b) = (hasErrorEvent a || hasErrorEvent b) := by
  simp [hasErrorEvent]

/-! ### Lemmas about the trace-shape predicates -/

theorem wfResultsSeq_cons_results (c : List Item) (rest : List Event) :
    wfResultsSeq (Event.results c :: rest) = wfResultsSeq rest := rfl

theorem wellFormedTrace_cons_rc (t : Nat) (rest : List Event) :
    wellFormedTrace (Event.resultCount t :: rest) = wfResultsSeq rest := rfl

theorem wfTail_shape {evs : List Event} (h : wfTail evs = true) :
    evs = [Event.endEvent] ∨ ∃ m, evs = [Event.error m, Event.endEvent] := by
  cases evs with
  | nil => simp [wfTail] at h
  | cons a tail =>
    cases tail with
    | nil => cases a <;> simp_all [wfTail]
    | cons b tail2 =>
      cases tail2 with
      | nil => cases a <;> cases b <;> simp_all [wfTail]
      | cons c tail3 => cases a <;> cases b <;> simp_all [wfTail]

theorem wfResultsSeq_shape {evs : List Event} (h : wfResultsSeq evs = true) :
    ∃ (chunks : List (List Item)) (tail : List Event),
      evs = (chunks.map Event.results) ++ tail ∧ wfTail tail = true := by
  induction evs with
  | nil => simp [wfResultsSeq, wfTail] at h
  | cons e rest ih =>
    cases e with
    | results c =>
      obtain ⟨chunks, tail, heq, htail⟩ := ih (by simpa [wfResultsSeq] using h)
      exact ⟨c :: chunks, tail, by simp [heq], htail⟩
    | resultCount t => exact ⟨[], Event.resultCount t :: rest, rfl, by simpa [wfResultsSeq] using h⟩
    | error m => exact ⟨[], Event.error m :: rest, rfl, by simpa [wfResultsSeq] using h⟩
    | endEvent => exact ⟨[], Event.endEvent :: rest, rfl, by simpa [wfResultsSeq] using h⟩

theorem wfResultsSeq_of_shape {chunks : List (List Item)} {tail : List Event}
    (htail : wfTail tail = true) :
    wfResultsSeq ((chunks.map Event.results) ++ tail) = true := by
  induction chunks with
  | nil =>
    rcases wfTail_shape htail with h | ⟨m, h⟩ <;> subst h <;> rfl
  | cons c chunks ih => simpa [wfResultsSeq] using ih

theorem wfResultsSeq_count_rc {evs : List Event} (h : wfResultsSeq evs = true) :
    countEvents isResultCountEvent evs = 0 := by
  obtain ⟨chunks, tail, heq, htail⟩ := wfResultsSeq_shape h
  subst heq
  rw [countEvents_append]
  have h1 : countEvents isResultCountEvent (chunks.map Event.results) = 0 := by
    rw [countEvents_eq_zero]
    intro e he
    obtain ⟨c, _, rfl⟩ := List.mem_map.mp he
    rfl
  have h2 : countEvents isResultCountEvent tail = 0 := by
    rcases wfTail_shape htail with rfl | ⟨m, rfl⟩ <;> rfl
  omega

theorem wfResultsSeq_end_shape {evs : List Event} (h : wfResultsSeq evs = true) :
    ∃ pre, evs = pre ++ [Event.endEvent] ∧ countEvents isEndEvent pre = 0 := by
  obtain ⟨chunks, tail, heq, htail⟩ := wfResultsSeq_shape h
  subst heq
  have hmap : countEvents isEndEvent (chunks.map Event.results) = 0 := by
    rw [countEvents_eq_zero]
    intro e he
    obtain ⟨c, _, rfl⟩ := List.mem_map.mp he
    rfl
  rcases wfTail_shape htail with rfl | ⟨m, rfl⟩
  · exact ⟨chunks.map Event.results, rfl, hmap⟩
  · refine ⟨chunks.map Event.results ++ [Event.error m], by simp, ?_⟩
    rw [countEvents_append, hmap]
    rfl

theorem wellFormedTrace_of_wfResultsSeq {evs : List Event}
    (h : wfResultsSeq evs = true) : wellFormedTrace evs = true := by
  cases evs with
  | nil => exact h
  | cons e rest =>
    cases e with
    | resultCount t => simp [wfResultsSeq, wfTail] at h
    | results c => exact h
    | error m => exact h
    | endEvent => exact h

theorem wellFormedTrace_shape {evs : List Event} (h : wellFormedTrace evs = true) :
    countEvents isResultCountEvent evs ≤ 1 ∧
    ∃ pre, evs = pre ++ [Event.endEvent] ∧ countEvents isEndEvent pre = 0 := by
  cases evs with
  | nil => simp [wellFormedTrace, wfResultsSeq, wfTail] at h
  | cons e rest =>
    cases e with
    | resultCount t =>
      have h' : wfResultsSeq rest = true := h
      constructor
      · rw [countEvents_cons_pos rest rfl, wfResultsSeq_count_rc h']
      · obtain ⟨pre, heq, hc⟩ := wfResultsSeq_end_shape h'
        refine ⟨Event.resultCount t :: pre, by simp [heq], ?_⟩
        rw [countEvents_cons_neg pre rfl, hc]
    | results c =>
      have h' : wfResultsSeq (Event.results c :: rest) = true := h
      exact ⟨by rw [wfResultsSeq_count_rc h']; omega, wfResultsSeq_end_shape h'⟩
    | error m =>
      have h' : wfResultsSeq (Event.error m :: rest) = true := h
      exact ⟨by rw [wfResultsSeq_count_rc h']; omega, wfResultsSeq_end_shape h'⟩
    | endEvent =>
      have h' : wfResultsSeq (Event.endEvent :: rest) = true := h
      exact ⟨by rw [wfResultsSeq_count_rc h']; omega, wfResultsSeq_end_shape h'⟩

/-! ### Case lemmas for one fetch resolution -/

theorem processBatch_canceled (cfg : Config) (st : EngineState)
    (res : Except String SearchResult) (h : st.canceled = true) :
    processBatch cfg st res = (st, [], none) := by
  simp [processBatch, h]

theorem processBatch_fail (cfg : Config) (st : EngineState) (e : String)
    (h : st.canceled = false) :
    processBatch cfg st (Except.error e) =
      (st, [Event.error e, Event.endEvent], none) := by
  simp [processBatch, h]

theorem processBatch_guard (cfg : Config) (st : EngineState) (page : SearchResult)
    (h : st.canceled = false)
    (hg : sizeGuardFires cfg.maxResults page.total = true) :
    processBatch cfg st (Except.ok page) =
      (st, [Event.error maxResultsMessage, Event.endEvent], none) := by
  simp [processBatch, h, hg]

theorem processBatch_ok_cont (cfg : Config) (st : EngineState) (page : SearchResult)
    (h : st.canceled = false)
    (hg : sizeGuardFires cfg.maxResults page.total = false)
    (hc : (((chunkOf page).length == cfg.chunkSize) &&
      optTruthy (nextSearchAfterOf cfg (chunkOf page))) = true) :
    processBatch cfg st (Except.ok page) =
      ((deliverChunk cfg (recordCount st page.total).1 (chunkOf page)).1,
       (recordCount st page.total).2 ++
         (deliverChunk cfg (recordCount st page.total).1 (chunkOf page)).2,
       nextSearchAfterOf cfg (chunkOf page)) := by
  simp [processBatch, h, hg, hc]

theorem processBatch_ok_stop (cfg : Config) (st : EngineState) (page : SearchResult)
    (h : st.canceled = false)
    (hg : sizeGuardFires cfg.maxResults page.total = false)
    (hc : (((chunkOf page).length == cfg.chunkSize) &&
      optTruthy (nextSearchAfterOf cfg (chunkOf page))) = false) :
    processBatch cfg st (Except.ok page) =
      ((deliverChunk cfg (recordCount st page.total).1 (chunkOf page)).1,
       (recordCount st page.total).2 ++
         (deliverChunk cfg (recordCount st page.total).1 (chunkOf page)).2 ++
         (if cfg.incremental then ([] : List Event)
          else [Event.results
            (deliverChunk cfg (recordCount st page.total).1 (chunkOf page)).1.results]) ++
         [Event.endEvent],
       none) := by
  simp [processBatch, h, hg, hc]

/-! ### Basic lemmas about the fetch loop -/

theorem getBatchLoop_zero (cfg : Config)
    (searchFn : SearchQuery → Except String SearchResult) (query : CallerQuery)
    (cancelDuring : Nat → Bool) (i : Nat) (st : EngineState)
    (sa : Option String) :
    getBatchLoop cfg searchFn query cancelDuring 0 i st sa = none := rfl

theorem getBatchLoop_canceled (cfg : Config)
    (searchFn : SearchQuery → Except String SearchResult) (query : CallerQuery)
    (fuel i : Nat) (st : EngineState) (sa : Option String)
    (h : st.canceled = true) :
    getBatchLoop cfg searchFn query noCancel (fuel + 1) i st sa =
      some (st, [], [buildQuery cfg query sa]) := by
  simp [getBatchLoop, noCancel, processBatch_canceled cfg st _ h]

theorem getBatchLoop_head (cfg : Config)
    (searchFn : SearchQuery → Except String SearchResult) (query : CallerQuery)
    (cancelDuring : Nat → Bool) (fuel i : Nat) (st : EngineState)
    (sa : Option String) (st' : EngineState) (evs : List Event)
    (reqs : List SearchQuery)
    (h : getBatchLoop cfg searchFn query cancelDuring fuel i st sa =
      some (st', evs, reqs)) :
    reqs.head? = some (buildQuery cfg query sa) := by
  cases fuel with
  | zero => simp [getBatchLoop] at h
  | succ fuel =>
    simp only [getBatchLoop] at h
    split at h
    · simp only [Option.some.injEq, Prod.mk.injEq] at h
      obtain ⟨-, -, h3⟩ := h
      subst h3
      rfl
    · split at h
      · cases h
      · simp only [Option.some.injEq, Prod.mk.injEq] at h
        obtain ⟨-, -, h3⟩ := h
        subst h3
        rfl

/-! ### Unfolding the loop, one case per page outcome (no cancellation) -/

theorem getBatchLoop_fail (cfg : Config)
    (searchFn : SearchQuery → Except String SearchResult) (query : CallerQuery)
    (fuel i : Nat) (st : EngineState) (sa : Option String) (e : String)
    (hcanc : st.canceled = false)
    (hfn : searchFn (buildQuery cfg query sa) = Except.error e) :
    getBatchLoop cfg searchFn query noCancel (fuel + 1) i st sa =
      some (st, [Event.error e, Event.endEvent], [buildQuery cfg query sa]) := by
  simp [getBatchLoop, noCancel, hfn, processBatch_fail cfg st e hcanc]

theorem getBatchLoop_guardStop (cfg : Config)
    (searchFn : SearchQuery → Except String SearchResult) (query : CallerQuery)
    (fuel i : Nat) (st : EngineState) (sa : Option String) (page : SearchResult)
    (hcanc : st.canceled = false)
    (hfn : searchFn (buildQuery cfg query sa) = Except.ok page)
    (hg : sizeGuardFires cfg.maxResults page.total = true) :
    getBatchLoop cfg searchFn query noCancel (fuel + 1) i st sa =
      some (st, [Event.error maxResultsMessage, Event.endEvent],
        [buildQuery cfg query sa]) := by
  simp [getBatchLoop, noCancel, hfn, processBatch_guard cfg st page hcanc hg]

theorem getBatchLoop_stop (cfg : Config)
    (searchFn : SearchQuery → Except String SearchResult) (query : CallerQuery)
    (fuel i : Nat) (st : EngineState) (sa : Option String) (page : SearchResult)
    (hcanc : st.canceled = false)
    (hfn : searchFn (buildQuery cfg query sa) = Except.ok page)
    (hg : sizeGuardFires cfg.maxResults page.total = false)
    (hc : (((chunkOf page).length == cfg.chunkSize) &&
      optTruthy (nextSearchAfterOf cfg (chunkOf page))) = false) :
    getBatchLoop cfg searchFn query noCancel (fuel + 1) i st sa =
      some ((deliverChunk cfg (recordCount st page.total).1 (chunkOf page)).1,
        (recordCount st page.total).2 ++
          (deliverChunk cfg (recordCount st page.total).1 (chunkOf page)).2 ++
          (if cfg.incremental then ([] : List Event)
           else [Event.results
             (deliverChunk cfg (recordCount st page.total).1 (chunkOf page)).1.results]) ++
          [Event.endEvent],
        [buildQuery cfg query sa]) := by
  simp [getBatchLoop, noCancel, hfn, processBatch_ok_stop cfg st page hcanc hg hc]

theorem getBatchLoop_cont_none (cfg : Config)
    (searchFn : SearchQuery → Except String SearchResult) (query : CallerQuery)
    (fuel i : Nat) (st : EngineState) (sa : Option String) (page : SearchResult)
    (cursor : String)
    (hcanc : st.canceled = false)
    (hfn : searchFn (buildQuery cfg query sa) = Except.ok page)
    (hg : sizeGuardFires cfg.maxResults page.total = false)
    (hc : (((chunkOf page).length == cfg.chunkSize) &&
      optTruthy (nextSearchAfterOf cfg (chunkOf page))) = true)
    (hnext : nextSearchAfterOf cfg (chunkOf page) = some cursor)
    (hrec : getBatchLoop cfg searchFn query noCancel fuel (i + 1)
      (deliverChunk cfg (recordCount st page.total).1 (chunkOf page)).1
      (some cursor) = none) :
    getBatchLoop cfg searchFn query noCancel (fuel + 1) i st sa = none := by
  simp [getBatchLoop, noCancel, hfn, processBatch_ok_cont cfg st page hcanc hg hc,
    hnext, hrec]

theorem getBatchLoop_cont_some (cfg : Config)
    (searchFn : SearchQuery → Except String SearchResult) (query : CallerQuery)
    (fuel i : Nat) (st : EngineState) (sa : Option String) (page : SearchResult)
    (cursor : String) (stF : EngineState) (evsF : List Event)
    (reqsF : List SearchQuery)
    (hcanc : st.canceled = false)
    (hfn : searchFn (buildQuery cfg query sa) = Except.ok page)
    (hg : sizeGuardFires cfg.maxResults page.total = false)
    (hc : (((chunkOf page).length == cfg.chunkSize) &&
      optTruthy (nextSearchAfterOf cfg (chunkOf page))) = true)
    (hnext : nextSearchAfterOf cfg (chunkOf page) = some cursor)
    (hrec : getBatchLoop cfg searchFn query noCancel fuel (i + 1)
      (deliverChunk cfg (recordCount st page.total).1 (chunkOf page)).1
      (some cursor) = some (stF, evsF, reqsF)) :
    getBatchLoop cfg searchFn query noCancel (fuel + 1) i st sa =
      some (stF,
        ((recordCount st page.total).2 ++
          (deliverChunk cfg (recordCount st page.total).1 (chunkOf page)).2) ++ evsF,
        buildQuery cfg query sa :: reqsF) := by
  simp [getBatchLoop, noCancel, hfn, processBatch_ok_cont cfg st page hcanc hg hc,
    hnext, hrec]

/-! ### Classification of the events emitted for one delivered page -/

theorem recordCount_snd_hasError (st : EngineState) (total : Nat) :
    hasErrorEvent (recordCount st total).2 = false := by
  cases h : st.resultCount <;> simp [recordCount, h, hasErrorEvent, isErrorEvent]

theorem deliverChunk_snd_hasError (cfg : Config) (st : EngineState)
    (chunk : List Item) : hasErrorEvent (deliverChunk cfg st chunk).2 = false := by
  cases h : cfg.incremental <;> simp [deliverChunk, h, hasErrorEvent, isErrorEvent]

theorem recordCount_snd_count_results (st : EngineState) (total : Nat) :
    countEvents isResultsEvent (recordCount st total).2 = 0 := by
  cases h : st.resultCount <;> simp [recordCount, h, countEvents, isResultsEvent]

theorem deliverChunk_snd_count_results (cfg : Config) (st : EngineState)
    (chunk : List Item) :
    countEvents isResultsEvent (deliverChunk cfg st chunk).2 =
      (if cfg.incremental then 1 else 0) := by
  cases h : cfg.incremental <;> simp [deliverChunk, h, countEvents, isResultsEvent]

theorem recordCount_snd_count_error (st : EngineState) (total : Nat) :
    countEvents isErrorEvent (recordCount st total).2 = 0 := by
  cases h : st.resultCount <;> simp [recordCount, h, countEvents, isErrorEvent]

theorem deliverChunk_snd_count_error (cfg : Config) (st : EngineState)
    (chunk : List Item) :
    countEvents isErrorEvent (deliverChunk cfg st chunk).2 = 0 := by
  cases h : cfg.incremental <;> simp [deliverChunk, h, countEvents, isErrorEvent]

theorem recordCount_snd_count_endev (st : EngineState) (total : Nat) :
    countEvents isEndEvent (recordCount st total).2 = 0 := by
  cases h : st.resultCount <;> simp [recordCount, h, countEvents, isEndEvent]

theorem deliverChunk_snd_count_endev (cfg : Config) (st : EngineState)
    (chunk : List Item) :
    countEvents isEndEvent (deliverChunk cfg st chunk).2 = 0 := by
  cases h : cfg.incremental <;> simp [deliverChunk, h, countEvents, isEndEvent]

theorem recordCount_snd_count_rc (st : EngineState) (total : Nat) :
    countEvents isResultCountEvent (recordCount st total).2 =
      (if st.resultCount = none then 1 else 0) := by
  cases h : st.resultCount <;> simp [recordCount, h, countEvents, isResultCountEvent]

theorem deliverChunk_snd_count_rc (cfg : Config) (st : EngineState)
    (chunk : List Item) :
    countEvents isResultCountEvent (deliverChunk cfg st chunk).2 = 0 := by
  cases h : cfg.incremental <;> simp [deliverChunk, h, countEvents, isResultCountEvent]

/-! ### The master trace-shape lemma for sessions without cancellation -/

theorem getBatchLoop_trace_shape (cfg : Config)
    (searchFn : SearchQuery → Except String SearchResult) (query : CallerQuery) :
    ∀ (fuel i : Nat) (st : EngineState) (sa : Option String) (st' : EngineState)
      (evs : List Event) (reqs : List SearchQuery),
      st.canceled = false →
      getBatchLoop cfg searchFn query noCancel fuel i st sa = some (st', evs, reqs) →
      (st.resultCount = none → wellFormedTrace evs = true) ∧
      (st.resultCount.isSome = true → wfResultsSeq evs = true) ∧
      (cfg.incremental = false →
        countEvents isResultsEvent evs = if hasErrorEvent evs then 0 else 1) ∧
      (cfg.incremental = true →
        countEvents isResultsEvent evs =
          if hasErrorEvent evs then reqs.length - 1 else reqs.length) ∧
      1 ≤ reqs.length := by
  intro fuel
  induction fuel with
  | zero => intro i st sa st' evs reqs hcanc h; simp [getBatchLoop] at h
  | succ fuel ih =>
    intro i st sa st' evs reqs hcanc h
    rcases hfn : searchFn (buildQuery cfg query sa) with e | page
    · -- the fetch fails: error then end
      rw [getBatchLoop_fail cfg searchFn query fuel i st sa e hcanc hfn] at h
      simp only [Option.some.injEq, Prod.mk.injEq] at h
      obtain ⟨-, h2, h3⟩ := h
      subst h2; subst h3
      refine ⟨fun _ => rfl, fun _ => rfl, fun _ => ?_, fun _ => ?_, by simp⟩
      · simp [countEvents, hasErrorEvent, isErrorEvent, isResultsEvent, List.filter]
      · simp [countEvents, hasErrorEvent, isErrorEvent, isResultsEvent, List.filter]
    · cases hg : sizeGuardFires cfg.maxResults page.total with
      | true =>
        -- the size guard fires: error then end
        rw [getBatchLoop_guardStop cfg searchFn query fuel i st sa page hcanc hfn hg] at h
        simp only [Option.some.injEq, Prod.mk.injEq] at h
        obtain ⟨-, h2, h3⟩ := h
        subst h2; subst h3
        refine ⟨fun _ => rfl, fun _ => rfl, fun _ => ?_, fun _ => ?_, by simp⟩
        · simp [countEvents, hasErrorEvent, isErrorEvent, isResultsEvent, List.filter]
        · simp [countEvents, hasErrorEvent, isErrorEvent, isResultsEvent, List.filter]
      | false =>
        cases hc : (((chunkOf page).length == cfg.chunkSize) &&
            optTruthy (nextSearchAfterOf cfg (chunkOf page))) with
        | false =>
          -- last page of the session: deliver and emit the terminal events
          rw [getBatchLoop_stop cfg searchFn query fuel i st sa page hcanc hfn hg hc] at h
          simp only [Option.some.injEq, Prod.mk.injEq] at h
          obtain ⟨-, h2, h3⟩ := h
          subst h2; subst h3
          rcases hrc : st.resultCount with - | t
          · cases hinc : cfg.incremental with
            | true =>
              simp only [hrc, hinc, recordCount_of_none st page.total hrc,
                deliverChunk_of_incremental _ _ _ hinc]
              simp [wellFormedTrace, wfResultsSeq, wfTail, countEvents,
                hasErrorEvent, isErrorEvent, isResultsEvent, List.filter]
            | false =>
              simp only [hrc, hinc, recordCount_of_none st page.total hrc,
                deliverChunk_of_batch _ _ _ hinc]
              simp [wellFormedTrace, wfResultsSeq, wfTail, countEvents,
                hasErrorEvent, isErrorEvent, isResultsEvent, List.filter]
          · cases hinc : cfg.incremental with
            | true =>
              simp only [hrc, hinc, recordCount_of_some st page.total t hrc,
                deliverChunk_of_incremental _ _ _ hinc]
              simp [wellFormedTrace, wfResultsSeq, wfTail, countEvents,
                hasErrorEvent, isErrorEvent, isResultsEvent, List.filter]
            | false =>
              simp only [hrc, hinc, recordCount_of_some st page.total t hrc,
                deliverChunk_of_batch _ _ _ hinc]
              simp [wellFormedTrace, wfResultsSeq, wfTail, countEvents,
                hasErrorEvent, isErrorEvent, isResultsEvent, List.filter]
        | true =>
          -- a full page with a truthy cursor: recurse into the next batch
          have hnext : ∃ cursor, nextSearchAfterOf cfg (chunkOf page) = some cursor := by
            rcases hx : nextSearchAfterOf cfg (chunkOf page) with - | c
            · rw [hx] at hc; simp [optTruthy] at hc
            · exact ⟨c, rfl⟩
          obtain ⟨cursor, hnext⟩ := hnext
          rcases hrec : getBatchLoop cfg searchFn query noCancel fuel (i + 1)
              (deliverChunk cfg (recordCount st page.total).1 (chunkOf page)).1
              (some cursor) with - | out
          · rw [getBatchLoop_cont_none cfg searchFn query fuel i st sa page cursor
              hcanc hfn hg hc hnext hrec] at h
            cases h
          · obtain ⟨stF, evsF, reqsF⟩ := out
            rw [getBatchLoop_cont_some cfg searchFn query fuel i st sa page cursor
              stF evsF reqsF hcanc hfn hg hc hnext hrec] at h
            simp only [Option.some.injEq, Prod.mk.injEq] at h
            obtain ⟨-, h2, h3⟩ := h
            subst h2; subst h3
            have hcanc' :
                (deliverChunk cfg (recordCount st page.total).1 (chunkOf page)).1.canceled
                  = false := by
              rw [deliverChunk_fst_canceled, recordCount_fst_canceled]; exact hcanc
            obtain ⟨-, ihB, ihC, ihD, ihE⟩ :=
              ih (i + 1) _ (some cursor) stF evsF reqsF hcanc' hrec
            have hwfF : wfResultsSeq evsF = true := by
              apply ihB
              rw [deliverChunk_fst_resultCount]
              exact recordCount_fst_isSome st page.total
            have herr :
                hasErrorEvent (((recordCount st page.total).2 ++
                  (deliverChunk cfg (recordCount st page.total).1 (chunkOf page)).2) ++ evsF)
                  = hasErrorEvent evsF := by
              rw [hasErrorEvent_append, hasErrorEvent_append,
                recordCount_snd_hasError, deliverChunk_snd_hasError]
              simp
            refine ⟨fun hn => ?_, fun hs => ?_, fun hb => ?_, fun hb => ?_, by simp⟩
            · -- fresh session: the leading resultCount then results then the rest
              cases hinc : cfg.incremental with
              | true =>
                simp only [recordCount_of_none st page.total hn,
                  deliverChunk_of_incremental _ _ _ hinc]
                simpa [wellFormedTrace, wfResultsSeq] using hwfF
              | false =>
                simp only [recordCount_of_none st page.total hn,
                  deliverChunk_of_batch _ _ _ hinc]
                simpa [wellFormedTrace, wfResultsSeq] using hwfF
            · -- resultCount already recorded: no further resultCount event
              rw [Option.isSome_iff_exists] at hs
              obtain ⟨t, ht⟩ := hs
              cases hinc : cfg.incremental with
              | true =>
                simp only [recordCount_of_some st page.total t ht,
                  deliverChunk_of_incremental _ _ _ hinc]
                simpa [wfResultsSeq] using hwfF
              | false =>
                simp only [recordCount_of_some st page.total t ht,
                  deliverChunk_of_batch _ _ _ hinc]
                simpa [wfResultsSeq] using hwfF
            · -- batch mode: no results event before the recursion's trace
              rw [countEvents_append, countEvents_append,
                recordCount_snd_count_results, deliverChunk_snd_count_results, herr,
                ihC hb, hb]
              simp
            · -- incremental mode: one results event per delivered page
              rw [countEvents_append, countEvents_append,
                recordCount_snd_count_results, deliverChunk_snd_count_results, herr,
                ihD hb, hb]
              cases he : hasErrorEvent evsF <;> simp <;> omega

/-! ### Small rewriting lemmas for trace observations -/

theorem resultsPayloads_nil : resultsPayloads [] = [] := rfl

theorem resultsPayloads_cons_rc (t : Nat) (evs : List Event) :
    resultsPayloads (Event.resultCount t :: evs) = resultsPayloads evs := by
  simp [resultsPayloads]

theorem resultsPayloads_cons_results (c : List Item) (evs : List Event) :
    resultsPayloads (Event.results c :: evs) = c :: resultsPayloads evs := by
  simp [resultsPayloads]

theorem resultsPayloads_cons_error (m : String) (evs : List Event) :
    resultsPayloads (Event.error m :: evs) = resultsPayloads evs := by
  simp [resultsPayloads]

theorem resultsPayloads_cons_endev (evs : List Event) :
    resultsPayloads (Event.endEvent :: evs) = resultsPayloads evs := by
  simp [resultsPayloads]

theorem hasErrorEvent_cons_rc (t : Nat) (evs : List Event) :
    hasErrorEvent (Event.resultCount t :: evs) = hasErrorEvent evs := by
  simp [hasErrorEvent, isErrorEvent]

theorem hasErrorEvent_cons_results (c : List Item) (evs : List Event) :
    hasErrorEvent (Event.results c :: evs) = hasErrorEvent evs := by
  simp [hasErrorEvent, isErrorEvent]

theorem hasErrorEvent_cons_endev (evs : List Event) :
    hasErrorEvent (Event.endEvent :: evs) = hasErrorEvent evs := by
  simp [hasErrorEvent, isErrorEvent]

/-! ### Unfolding the loop under a cancellation schedule -/

theorem getBatchLoop_cancelHit (cfg : Config)
    (searchFn : SearchQuery → Except String SearchResult) (query : CallerQuery)
    (cancelDuring : Nat → Bool) (fuel i : Nat) (st : EngineState)
    (sa : Option String) (hcd : cancelDuring i = true) :
    getBatchLoop cfg searchFn query cancelDuring (fuel + 1) i st sa =
      some ({ st with canceled := true }, [Event.endEvent],
        [buildQuery cfg query sa]) := by
  simp [getBatchLoop, hcd,
    processBatch_canceled cfg { st with canceled := true }
      (searchFn (buildQuery cfg query sa)) rfl]

theorem getBatchLoop_fail_cd (cfg : Config)
    (searchFn : SearchQuery → Except String SearchResult) (query : CallerQuery)
    (cancelDuring : Nat → Bool) (fuel i : Nat) (st : EngineState)
    (sa : Option String) (e : String)
    (hcd : cancelDuring i = false) (hcanc : st.canceled = false)
    (hfn : searchFn (buildQuery cfg query sa) = Except.error e) :
    getBatchLoop cfg searchFn query cancelDuring (fuel + 1) i st sa =
      some (st, [Event.error e, Event.endEvent], [buildQuery cfg query sa]) := by
  simp [getBatchLoop, hcd, hfn, processBatch_fail cfg st e hcanc]

theorem getBatchLoop_guardStop_cd (cfg : Config)
    (searchFn : SearchQuery → Except String SearchResult) (query : CallerQuery)
    (cancelDuring : Nat → Bool) (fuel i : Nat) (st : EngineState)
    (sa : Option String) (page : SearchResult)
    (hcd : cancelDuring i = false) (hcanc : st.canceled = false)
    (hfn : searchFn (buildQuery cfg query sa) = Except.ok page)
    (hg : sizeGuardFires cfg.maxResults page.total = true) :
    getBatchLoop cfg searchFn query cancelDuring (fuel + 1) i st sa =
      some (st, [Event.error maxResultsMessage, Event.endEvent],
        [buildQuery cfg query sa]) := by
  simp [getBatchLoop, hcd, hfn, processBatch_guard cfg st page hcanc hg]

theorem getBatchLoop_stop_cd (cfg : Config)
    (searchFn : SearchQuery → Except String SearchResult) (query : CallerQuery)
    (cancelDuring : Nat → Bool) (fuel i : Nat) (st : EngineState)
    (sa : Option String) (page : SearchResult)
    (hcd : cancelDuring i = false) (hcanc : st.canceled = false)
    (hfn : searchFn (buildQuery cfg query sa) = Except.ok page)
    (hg : sizeGuardFires cfg.maxResults page.total = false)
    (hc : (((chunkOf page).length == cfg.chunkSize) &&
      optTruthy (nextSearchAfterOf cfg (chunkOf page))) = false) :
    getBatchLoop cfg searchFn query cancelDuring (fuel + 1) i st sa =
      some ((deliverChunk cfg (recordCount st page.total).1 (chunkOf page)).1,
        (recordCount st page.total).2 ++
          (deliverChunk cfg (recordCount st page.total).1 (chunkOf page)).2 ++
          (if cfg.incremental then ([] : List Event)
           else [Event.results
             (deliverChunk cfg (recordCount st page.total).1 (chunkOf page)).1.results]) ++
          [Event.endEvent],
        [buildQuery cfg query sa]) := by
  simp [getBatchLoop, hcd, hfn, processBatch_ok_stop cfg st page hcanc hg hc]

theorem getBatchLoop_cont_none_cd (cfg : Config)
    (searchFn : SearchQuery → Except String SearchResult) (query : CallerQuery)
    (cancelDuring : Nat → Bool) (fuel i : Nat) (st : EngineState)
    (sa : Option String) (page : SearchResult) (cursor : String)
    (hcd : cancelDuring i = false) (hcanc : st.canceled = false)
    (hfn : searchFn (buildQuery cfg query sa) = Except.ok page)
    (hg : sizeGuardFires cfg.maxResults page.total = false)
    (hc : (((chunkOf page).length == cfg.chunkSize) &&
      optTruthy (nextSearchAfterOf cfg (chunkOf page))) = true)
    (hnext : nextSearchAfterOf cfg (chunkOf page) = some cursor)
    (hrec : getBatchLoop cfg searchFn query cancelDuring fuel (i + 1)
      (deliverChunk cfg (recordCount st page.total).1 (chunkOf page)).1
      (some cursor) = none) :
    getBatchLoop cfg searchFn query cancelDuring (fuel + 1) i st sa = none := by
  simp [getBatchLoop, hcd, hfn, processBatch_ok_cont cfg st page hcanc hg hc,
    hnext, hrec]

theorem getBatchLoop_cont_some_cd (cfg : Config)
    (searchFn : SearchQuery → Except String SearchResult) (query : CallerQuery)
    (cancelDuring : Nat → Bool) (fuel i : Nat) (st : EngineState)
    (sa : Option String) (page : SearchResult) (cursor : String)
    (stF : EngineState) (evsF : List Event) (reqsF : List SearchQuery)
    (hcd : cancelDuring i = false) (hcanc : st.canceled = false)
    (hfn : searchFn (buildQuery cfg query sa) = Except.ok page)
    (hg : sizeGuardFires cfg.maxResults page.total = false)
    (hc : (((chunkOf page).length == cfg.chunkSize) &&
      optTruthy (nextSearchAfterOf cfg (chunkOf page))) = true)
    (hnext : nextSearchAfterOf cfg (chunkOf page) = some cursor)
    (hrec : getBatchLoop cfg searchFn query cancelDuring fuel (i + 1)
      (deliverChunk cfg (recordCount st page.total).1 (chunkOf page)).1
      (some cursor) = some (stF, evsF, reqsF)) :
    getBatchLoop cfg searchFn query cancelDuring (fuel + 1) i st sa =
      some (stF,
        ((recordCount st page.total).2 ++
          (deliverChunk cfg (recordCount st page.total).1 (chunkOf page)).2) ++ evsF,
        buildQuery cfg query sa :: reqsF) := by
  simp [getBatchLoop, hcd, hfn, processBatch_ok_cont cfg st page hcanc hg hc,
    hnext, hrec]

/-! ### Cancellation: one `end` at the cancel point, then silence -/

theorem getBatchLoop_cancel_shape (cfg : Config)
    (searchFn : SearchQuery → Except String SearchResult) (query : CallerQuery)
    (cancelDuring : Nat → Bool) :
    ∀ (fuel i : Nat) (st : EngineState) (sa : Option String) (st' : EngineState)
      (evs : List Event) (reqs : List SearchQuery) (k : Nat),
      st.canceled = false →
      getBatchLoop cfg searchFn query cancelDuring fuel i st sa = some (st', evs, reqs) →
      i ≤ k → cancelDuring k = true →
      (∀ j, i ≤ j → j < k → cancelDuring j = false) →
      k - i < reqs.length →
      reqs.length = k - i + 1 ∧
      (∃ pre, evs = pre ++ [Event.endEvent] ∧ countEvents isEndEvent pre = 0) ∧
      countEvents isErrorEvent evs = 0 := by
  intro fuel
  induction fuel with
  | zero =>
    intro i st sa st' evs reqs k hcanc h hik hk hbefore hkr
    simp [getBatchLoop] at h
  | succ fuel ih =>
    intro i st sa st' evs reqs k hcanc h hik hk hbefore hkr
    cases hx : cancelDuring i with
    | true =>
      have hikk : i = k := by
        by_contra hne
        have hlt : i < k := lt_of_le_of_ne hik hne
        rw [hbefore i (le_refl i) hlt] at hx
        cases hx
      subst hikk
      rw [getBatchLoop_cancelHit cfg searchFn query cancelDuring fuel i st sa hx] at h
      simp only [Option.some.injEq, Prod.mk.injEq] at h
      obtain ⟨-, h2, h3⟩ := h
      subst h2; subst h3
      refine ⟨by simp, ⟨[], rfl, rfl⟩, rfl⟩
    | false =>
      have hlt : i < k := by
        rcases lt_or_eq_of_le hik with hlt | he
        · exact hlt
        · rw [he] at hx; rw [hk] at hx; cases hx
      rcases hfn : searchFn (buildQuery cfg query sa) with e | page
      · rw [getBatchLoop_fail_cd cfg searchFn query cancelDuring fuel i st sa e
          hx hcanc hfn] at h
        simp only [Option.some.injEq, Prod.mk.injEq] at h
        obtain ⟨-, -, h3⟩ := h
        subst h3
        simp at hkr
        omega
      · cases hg : sizeGuardFires cfg.maxResults page.total with
        | true =>
          rw [getBatchLoop_guardStop_cd cfg searchFn query cancelDuring fuel i st sa
            page hx hcanc hfn hg] at h
          simp only [Option.some.injEq, Prod.mk.injEq] at h
          obtain ⟨-, -, h3⟩ := h
          subst h3
          simp at hkr
          omega
        | false =>
          cases hc : (((chunkOf page).length == cfg.chunkSize) &&
              optTruthy (nextSearchAfterOf cfg (chunkOf page))) with
          | false =>
            rw [getBatchLoop_stop_cd cfg searchFn query cancelDuring fuel i st sa
              page hx hcanc hfn hg hc] at h
            simp only [Option.some.injEq, Prod.mk.injEq] at h
            obtain ⟨-, -, h3⟩ := h
            subst h3
            simp at hkr
            omega
          | true =>
            have hnext : ∃ cursor, nextSearchAfterOf cfg (chunkOf page) = some cursor := by
              rcases hy : nextSearchAfterOf cfg (chunkOf page) with - | c
              · rw [hy] at hc; simp [optTruthy] at hc
              · exact ⟨c, rfl⟩
            obtain ⟨cursor, hnext⟩ := hnext
            rcases hrec : getBatchLoop cfg searchFn query cancelDuring fuel (i + 1)
                (deliverChunk cfg (recordCount st page.total).1 (chunkOf page)).1
                (some cursor) with - | ⟨stF, evsF, reqsF⟩
            · rw [getBatchLoop_cont_none_cd cfg searchFn query cancelDuring fuel i st sa
                page cursor hx hcanc hfn hg hc hnext hrec] at h
              cases h
            · rw [getBatchLoop_cont_some_cd cfg searchFn query cancelDuring fuel i st sa
                page cursor stF evsF reqsF hx hcanc hfn hg hc hnext hrec] at h
              simp only [Option.some.injEq, Prod.mk.injEq] at h
              obtain ⟨-, h2, h3⟩ := h
              subst h2; subst h3
              have hcanc' : (deliverChunk cfg (recordCount st page.total).1
                  (chunkOf page)).1.canceled = false := by
                rw [deliverChunk_fst_canceled, recordCount_fst_canceled]; exact hcanc
              have hkr' : k - (i + 1) < reqsF.length := by
                simp only [List.length_cons] at hkr
                omega
              have hbefore' : ∀ j, i + 1 ≤ j → j < k → cancelDuring j = false :=
                fun j hj1 hj2 => hbefore j (by omega) hj2
              obtain ⟨ihLen, ⟨pre, hpre, hpreCount⟩, ihErr⟩ :=
                ih (i + 1) _ (some cursor) stF evsF reqsF k hcanc' hrec
                  (by omega) hk hbefore' hkr'
              have hpageEnd : countEvents isEndEvent
                  ((recordCount st page.total).2 ++
                    (deliverChunk cfg (recordCount st page.total).1 (chunkOf page)).2) = 0 := by
                rw [countEvents_append, recordCount_snd_count_endev,
                  deliverChunk_snd_count_endev]
              have hpageErr : countEvents isErrorEvent
                  ((recordCount st page.total).2 ++
                    (deliverChunk cfg (recordCount st page.total).1 (chunkOf page)).2) = 0 := by
                rw [countEvents_append, recordCount_snd_count_error,
                  deliverChunk_snd_count_error]
              refine ⟨by simp only [List.length_cons]; omega, ?_, ?_⟩
              · refine ⟨((recordCount st page.total).2 ++
                  (deliverChunk cfg (recordCount st page.total).1 (chunkOf page)).2) ++ pre,
                  by simp [hpre], ?_⟩
                rw [countEvents_append, hpageEnd, hpreCount]
              · rw [countEvents_append, hpageErr, ihErr]

/-! ### The resultCount event: first, and exactly once -/

theorem getBatchLoop_first_rc (cfg : Config)
    (searchFn : SearchQuery → Except String SearchResult) (query : CallerQuery)
    (fuel i : Nat) (st : EngineState) (sa : Option String) (st' : EngineState)
    (evs : List Event) (reqs : List SearchQuery) (r : SearchResult)
    (hcanc : st.canceled = false) (hrcnone : st.resultCount = none)
    (h : getBatchLoop cfg searchFn query noCancel fuel i st sa = some (st', evs, reqs))
    (hfn : searchFn (buildQuery cfg query sa) = Except.ok r)
    (hg : sizeGuardFires cfg.maxResults r.total = false) :
    evs.head? = some (Event.resultCount r.total) ∧
    countEvents isResultCountEvent evs = 1 := by
  cases fuel with
  | zero => simp [getBatchLoop] at h
  | succ fuel =>
    cases hc : (((chunkOf r).length == cfg.chunkSize) &&
        optTruthy (nextSearchAfterOf cfg (chunkOf r))) with
    | false =>
      rw [getBatchLoop_stop cfg searchFn query fuel i st sa r hcanc hfn hg hc] at h
      simp only [Option.some.injEq, Prod.mk.injEq] at h
      obtain ⟨-, h2, -⟩ := h
      subst h2
      rw [recordCount_of_none st r.total hrcnone]
      cases hinc : cfg.incremental with
      | true =>
        simp only [deliverChunk_of_incremental _ _ _ hinc, hinc]
        constructor
        · rfl
        · simp [countEvents, isResultCountEvent, List.filter]
      | false =>
        simp only [deliverChunk_of_batch _ _ _ hinc, hinc]
        constructor
        · rfl
        · simp [countEvents, isResultCountEvent, List.filter]
    | true =>
      have hnext : ∃ cursor, nextSearchAfterOf cfg (chunkOf r) = some cursor := by
        rcases hy : nextSearchAfterOf cfg (chunkOf r) with - | c
        · rw [hy] at hc; simp [optTruthy] at hc
        · exact ⟨c, rfl⟩
      obtain ⟨cursor, hnext⟩ := hnext
      rcases hrec : getBatchLoop cfg searchFn query noCancel fuel (i + 1)
          (deliverChunk cfg (recordCount st r.total).1 (chunkOf r)).1
          (some cursor) with - | ⟨stF, evsF, reqsF⟩
      · rw [getBatchLoop_cont_none cfg searchFn query fuel i st sa r cursor
          hcanc hfn hg hc hnext hrec] at h
        cases h
      · rw [getBatchLoop_cont_some cfg searchFn query fuel i st sa r cursor
          stF evsF reqsF hcanc hfn hg hc hnext hrec] at h
        simp only [Option.some.injEq, Prod.mk.injEq] at h
        obtain ⟨-, h2, -⟩ := h
        subst h2
        have hcanc' : (deliverChunk cfg (recordCount st r.total).1
            (chunkOf r)).1.canceled = false := by
          rw [deliverChunk_fst_canceled, recordCount_fst_canceled]; exact hcanc
        obtain ⟨-, ihB, -, -, -⟩ :=
          getBatchLoop_trace_shape cfg searchFn query fuel (i + 1) _ (some cursor)
            stF evsF reqsF hcanc' hrec
        have hrcF : countEvents isResultCountEvent evsF = 0 := by
          apply wfResultsSeq_count_rc
          apply ihB
          rw [deliverChunk_fst_resultCount]
          exact recordCount_fst_isSome st r.total
        rw [recordCount_of_none st r.total hrcnone]
        cases hinc : cfg.incremental with
        | true =>
          simp only [deliverChunk_of_incremental _ _ _ hinc]
          constructor
          · rfl
          · simp only [List.cons_append, List.nil_append,
              countEvents_cons_pos _ (rfl : isResultCountEvent
                (Event.resultCount r.total) = true)]
            rw [countEvents_cons_neg _ (rfl : isResultCountEvent
              (Event.results (chunkOf r)) = false), hrcF]
        | false =>
          simp only [deliverChunk_of_batch _ _ _ hinc]
          constructor
          · rfl
          · simp only [List.cons_append, List.nil_append]
            rw [countEvents_cons_pos _ (rfl : isResultCountEvent
              (Event.resultCount r.total) = true), hrcF]

/-! ### A failing fetch terminates the session with its error -/

theorem getBatchLoop_error_terminal (cfg : Config)
    (searchFn : SearchQuery → Except String SearchResult) (query : CallerQuery) :
    ∀ (fuel i : Nat) (st : EngineState) (sa : Option String) (st' : EngineState)
      (evs : List Event) (reqs : List SearchQuery),
      st.canceled = false →
      getBatchLoop cfg searchFn query noCancel fuel i st sa = some (st', evs, reqs) →
      ∀ (j : Nat) (hj : j < reqs.length) (e : String),
        searchFn (reqs.get ⟨j, hj⟩) = Except.error e →
        j + 1 = reqs.length ∧
        ∃ pre, evs = pre ++ [Event.error e, Event.endEvent] ∧
          countEvents isErrorEvent pre = 0 ∧ countEvents isEndEvent pre = 0 := by
  intro fuel
  induction fuel with
  | zero =>
    intro i st sa st' evs reqs hcanc h
    simp [getBatchLoop] at h
  | succ fuel ih =>
    intro i st sa st' evs reqs hcanc h j hj e hfail
    rcases hfn : searchFn (buildQuery cfg query sa) with e0 | page
    · rw [getBatchLoop_fail cfg searchFn query fuel i st sa e0 hcanc hfn] at h
      simp only [Option.some.injEq, Prod.mk.injEq] at h
      obtain ⟨-, h2, h3⟩ := h
      subst h2
      subst h3
      have hj0 : j = 0 := by
        simp only [List.length_cons, List.length_nil] at hj
        omega
      subst hj0
      simp only [List.get] at hfail
      rw [hfn] at hfail
      injection hfail with he
      subst he
      exact ⟨rfl, [], rfl, rfl, rfl⟩
    · cases hg : sizeGuardFires cfg.maxResults page.total with
      | true =>
        rw [getBatchLoop_guardStop cfg searchFn query fuel i st sa page hcanc hfn hg] at h
        simp only [Option.some.injEq, Prod.mk.injEq] at h
        obtain ⟨-, h2, h3⟩ := h
        subst h2
        subst h3
        have hj0 : j = 0 := by
          simp only [List.length_cons, List.length_nil] at hj
          omega
        subst hj0
        simp only [List.get] at hfail
        rw [hfn] at hfail
        cases hfail
      | false =>
        cases hc : (((chunkOf page).length == cfg.chunkSize) &&
            optTruthy (nextSearchAfterOf cfg (chunkOf page))) with
        | false =>
          rw [getBatchLoop_stop cfg searchFn query fuel i st sa page hcanc hfn hg hc] at h
          simp only [Option.some.injEq, Prod.mk.injEq] at h
          obtain ⟨-, h2, h3⟩ := h
          subst h2
          subst h3
          have hj0 : j = 0 := by
            simp only [List.length_cons, List.length_nil] at hj
            omega
          subst hj0
          simp only [List.get] at hfail
          rw [hfn] at hfail
          cases hfail
        | true =>
          have hnext : ∃ cursor, nextSearchAfterOf cfg (chunkOf page) = some cursor := by
            rcases hy : nextSearchAfterOf cfg (chunkOf page) with - | c
            · rw [hy] at hc; simp [optTruthy] at hc
            · exact ⟨c, rfl⟩
          obtain ⟨cursor, hnext⟩ := hnext
          rcases hrec : getBatchLoop cfg searchFn query noCancel fuel (i + 1)
              (deliverChunk cfg (recordCount st page.total).1 (chunkOf page)).1
              (some cursor) with - | ⟨stF, evsF, reqsF⟩
          · rw [getBatchLoop_cont_none cfg searchFn query fuel i st sa page cursor
              hcanc hfn hg hc hnext hrec] at h
            cases h
          · rw [getBatchLoop_cont_some cfg searchFn query fuel i st sa page cursor
              stF evsF reqsF hcanc hfn hg hc hnext hrec] at h
            simp only [Option.some.injEq, Prod.mk.injEq] at h
            obtain ⟨-, h2, h3⟩ := h
            subst h2
            subst h3
            have hcanc' : (deliverChunk cfg (recordCount st page.total).1
                (chunkOf page)).1.canceled = false := by
              rw [deliverChunk_fst_canceled, recordCount_fst_canceled]; exact hcanc
            rcases j with - | j'
            · simp only [List.get] at hfail
              rw [hfn] at hfail
              cases hfail
            · have hj' : j' < reqsF.length := by
                simp only [List.length_cons] at hj
                omega
              have hfail' : searchFn (reqsF.get ⟨j', hj'⟩) = Except.error e := by
                simpa only [List.get] using hfail
              obtain ⟨ihLen, pre, hpre, hpreErr, hpreEnd⟩ :=
                ih (i + 1) _ (some cursor) stF evsF reqsF hcanc' hrec j' hj' e hfail'
              have hpageErr : countEvents isErrorEvent
                  ((recordCount st page.total).2 ++
                    (deliverChunk cfg (recordCount st page.total).1 (chunkOf page)).2) = 0 := by
                rw [countEvents_append, recordCount_snd_count_error,
                  deliverChunk_snd_count_error]
              have hpageEnd : countEvents isEndEvent
                  ((recordCount st page.total).2 ++
                    (deliverChunk cfg (recordCount st page.total).1 (chunkOf page)).2) = 0 := by
                rw [countEvents_append, recordCount_snd_count_endev,
                  deliverChunk_snd_count_endev]
              refine ⟨by simp only [List.length_cons]; omega,
                ((recordCount st page.total).2 ++
                  (deliverChunk cfg (recordCount st page.total).1 (chunkOf page)).2) ++ pre,
                by simp [hpre], ?_, ?_⟩
              · rw [countEvents_append, hpageErr, hpreErr]
              · rw [countEvents_append, hpageEnd, hpreEnd]

/-! ### The requests of a session form a continuation chain -/

theorem buildQuery_search_after_none (cfg : Config) (query : CallerQuery) :
    (buildQuery cfg query none).search_after = none := rfl

theorem buildQuery_search_after_truthy (cfg : Config) (query : CallerQuery)
    (sa : Option String) (h : optTruthy sa = true) :
    (buildQuery cfg query sa).search_after = sa := by
  simp [buildQuery, h]

theorem getBatchLoop_reqChain (cfg : Config)
    (searchFn : SearchQuery → Except String SearchResult) (query : CallerQuery) :
    ∀ (fuel i : Nat) (st : EngineState) (sa : Option String) (st' : EngineState)
      (evs : List Event) (reqs : List SearchQuery),
      st.canceled = false →
      getBatchLoop cfg searchFn query noCancel fuel i st sa = some (st', evs, reqs) →
      reqChain cfg searchFn query reqs := by
  intro fuel
  induction fuel with
  | zero => intro i st sa st' evs reqs hcanc h; simp [getBatchLoop] at h
  | succ fuel ih =>
    intro i st sa st' evs reqs hcanc h
    rcases hfn : searchFn (buildQuery cfg query sa) with e | page
    · rw [getBatchLoop_fail cfg searchFn query fuel i st sa e hcanc hfn] at h
      simp only [Option.some.injEq, Prod.mk.injEq] at h
      obtain ⟨-, -, h3⟩ := h
      subst h3
      simp [reqChain, contCursor, hfn]
    · cases hg : sizeGuardFires cfg.maxResults page.total with
      | true =>
        rw [getBatchLoop_guardStop cfg searchFn query fuel i st sa page hcanc hfn hg] at h
        simp only [Option.some.injEq, Prod.mk.injEq] at h
        obtain ⟨-, -, h3⟩ := h
        subst h3
        simp [reqChain, contCursor, hfn, hg]
      | false =>
        cases hc : (((chunkOf page).length == cfg.chunkSize) &&
            optTruthy (nextSearchAfterOf cfg (chunkOf page))) with
        | false =>
          rw [getBatchLoop_stop cfg searchFn query fuel i st sa page hcanc hfn hg hc] at h
          simp only [Option.some.injEq, Prod.mk.injEq] at h
          obtain ⟨-, -, h3⟩ := h
          subst h3
          simp [reqChain, contCursor, hfn, hg, hc]
        | true =>
          have hnext : ∃ cursor, nextSearchAfterOf cfg (chunkOf page) = some cursor := by
            rcases hx : nextSearchAfterOf cfg (chunkOf page) with - | c
            · rw [hx] at hc; simp [optTruthy] at hc
            · exact ⟨c, rfl⟩
          obtain ⟨cursor, hnext⟩ := hnext
          rcases hrec : getBatchLoop cfg searchFn query noCancel fuel (i + 1)
              (deliverChunk cfg (recordCount st page.total).1 (chunkOf page)).1
              (some cursor) with - | ⟨stF, evsF, reqsF⟩
          · rw [getBatchLoop_cont_none cfg searchFn query fuel i st sa page cursor
              hcanc hfn hg hc hnext hrec] at h
            cases h
          · rw [getBatchLoop_cont_some cfg searchFn query fuel i st sa page cursor
              stF evsF reqsF hcanc hfn hg hc hnext hrec] at h
            simp only [Option.some.injEq, Prod.mk.injEq] at h
            obtain ⟨-, -, h3⟩ := h
            subst h3
            have hcanc' : (deliverChunk cfg (recordCount st page.total).1
                (chunkOf page)).1.canceled = false := by
              rw [deliverChunk_fst_canceled, recordCount_fst_canceled]; exact hcanc
            have hchain := ih (i + 1) _ (some cursor) stF evsF reqsF hcanc' hrec
            have hhead := getBatchLoop_head cfg searchFn query noCancel fuel (i + 1) _
              (some cursor) stF evsF reqsF hrec
            have hcc := hc
            rw [Bool.and_eq_true] at hcc
            have htr : optTruthy (some cursor) = true := by
              rw [← hnext]; exact hcc.2
            rcases reqsF with - | ⟨req2, rest⟩
            · simp at hhead
            · simp only [List.head?_cons, Option.some.injEq] at hhead
              subst hhead
              refine ⟨⟨cursor, ?_, rfl, ?_⟩, hchain⟩
              · simp only [contCursor, hfn, hg, hc, hnext]
                simp
                exact ⟨by simpa using hcc.1, htr⟩
              · exact buildQuery_search_after_truthy cfg query (some cursor) htr

/-! ### Lemmas about the instrumented event sink -/

theorem emitSeq_no_throw (listener : Event → Option String) :
    ∀ evs : List Event, (emitSeq listener evs).2 = none →
      (emitSeq listener evs).1 = evs ∧ ∀ e ∈ evs, listener e = none := by
  intro evs
  induction evs with
  | nil => intro _; exact ⟨rfl, by simp⟩
  | cons a rest ih =>
    intro h
    cases hl : listener a with
    | some ex => simp [emitSeq, hl] at h
    | none =>
      simp only [emitSeq, hl] at h
      obtain ⟨h1, h2⟩ := ih h
      refine ⟨by simp [emitSeq, hl, h1], ?_⟩
      intro e he
      rcases List.mem_cons.mp he with rfl | he'
      · exact hl
      · exact h2 e he'

theorem emitSeq_throw (listener : Event → Option String) :
    ∀ (evs : List Event) (ex : String), (emitSeq listener evs).2 = some ex →
      ∃ (pre : List Event) (e : Event) (suf : List Event),
        evs = pre ++ e :: suf ∧ (∀ x ∈ pre, listener x = none) ∧
        listener e = some ex ∧ (emitSeq listener evs).1 = pre ++ [e] := by
  intro evs
  induction evs with
  | nil => intro ex h; simp [emitSeq] at h
  | cons a rest ih =>
    intro ex h
    cases hl : listener a with
    | some ex0 =>
      simp only [emitSeq, hl, Option.some.injEq] at h
      subst h
      exact ⟨[], a, rest, rfl, by simp, hl, by simp [emitSeq, hl]⟩
    | none =>
      simp only [emitSeq, hl] at h
      obtain ⟨pre, e, suf, hsplit, hclean, hthrow, hout⟩ := ih ex h
      refine ⟨a :: pre, e, suf, by simp [hsplit], ?_, hthrow,
        by simp [emitSeq, hl, hout]⟩
      intro x hx
      rcases List.mem_cons.mp hx with rfl | hx'
      · exact hl
      · exact hclean x hx'

theorem runCatch_clean (listener : Event → Option String) (st : EngineState)
    (err : String) (hcanc : st.canceled = false)
    (hErr : ∀ m, listener (Event.error m) = none)
    (hEnd : listener Event.endEvent = none) :
    runCatch listener st err = ([Event.error err, Event.endEvent], false) := by
  simp [runCatch, hcanc, hErr err, hEnd]

theorem firstThrown_append_clean (listener : Event → Option String) :
    ∀ (a b : List Event), (∀ x ∈ a, listener x = none) →
      firstThrown listener (a ++ b) = firstThrown listener b := by
  intro a
  induction a with
  | nil => intro b _; rfl
  | cons x rest ih =>
    intro b hclean
    have hx : listener x = none := hclean x (List.mem_cons_self x rest)
    simp only [List.cons_append, firstThrown, hx]
    exact ih b fun y hy => hclean y (List.mem_cons_of_mem x hy)

theorem firstThrown_clean (listener : Event → Option String) :
    ∀ a : List Event, (∀ x ∈ a, listener x = none) →
      firstThrown listener a = none := by
  intro a
  induction a with
  | nil => intro _; rfl
  | cons x rest ih =>
    intro hclean
    have hx : listener x = none := hclean x (List.mem_cons_self x rest)
    simp only [firstThrown, hx]
    exact ih fun y hy => hclean y (List.mem_cons_of_mem x hy)

theorem firstThrown_cons_throw (listener : Event → Option String) (e : Event)
    (evs : List Event) (ex : String) (h : listener e = some ex) :
    firstThrown listener (e :: evs) = some ex := by
  simp [firstThrown, h]

/-! ### Unfolding the instrumented loop, one case per outcome -/

theorem getBatchLoopL_fail (cfg : Config)
    (searchFn : SearchQuery → Except String SearchResult)
    (listener : Event → Option String) (query : CallerQuery)
    (fuel : Nat) (st : EngineState) (sa : Option String) (e : String)
    (hcanc : st.canceled = false)
    (hfn : searchFn (buildQuery cfg query sa) = Except.error e) :
    getBatchLoopL cfg searchFn listener query (fuel + 1) st sa =
      some (st, (runCatch listener st e).1, (runCatch listener st e).2) := by
  simp [getBatchLoopL, hfn, hcanc]

theorem getBatchLoopL_guard (cfg : Config)
    (searchFn : SearchQuery → Except String SearchResult)
    (listener : Event → Option String) (query : CallerQuery)
    (fuel : Nat) (st : EngineState) (sa : Option String) (page : SearchResult)
    (hcanc : st.canceled = false)
    (hfn : searchFn (buildQuery cfg query sa) = Except.ok page)
    (hg : sizeGuardFires cfg.maxResults page.total = true)
    (hErr : ∀ m, listener (Event.error m) = none)
    (hEnd : listener Event.endEvent = none) :
    getBatchLoopL cfg searchFn listener query (fuel + 1) st sa =
      some (st, [Event.error maxResultsMessage, Event.endEvent], false) := by
  simp [getBatchLoopL, hfn, hcanc, hg, emitSeq, hErr, hEnd]

theorem getBatchLoopL_page_throw (cfg : Config)
    (searchFn : SearchQuery → Except String SearchResult)
    (listener : Event → Option String) (query : CallerQuery)
    (fuel : Nat) (st : EngineState) (sa : Option String) (page : SearchResult)
    (ex : String)
    (hcanc : st.canceled = false)
    (hfn : searchFn (buildQuery cfg query sa) = Except.ok page)
    (hg : sizeGuardFires cfg.maxResults page.total = false)
    (hpe : (emitSeq listener
      ((recordCount st page.total).2 ++
        (deliverChunk cfg (recordCount st page.total).1 (chunkOf page)).2)).2 = some ex) :
    getBatchLoopL cfg searchFn listener query (fuel + 1) st sa =
      some ((deliverChunk cfg (recordCount st page.total).1 (chunkOf page)).1,
        (emitSeq listener
          ((recordCount st page.total).2 ++
            (deliverChunk cfg (recordCount st page.total).1 (chunkOf page)).2)).1 ++
          (runCatch listener
            (deliverChunk cfg (recordCount st page.total).1 (chunkOf page)).1 ex).1,
        (runCatch listener
          (deliverChunk cfg (recordCount st page.total).1 (chunkOf page)).1 ex).2) := by
  simp [getBatchLoopL, hfn, hcanc, hg, hpe]

theorem getBatchLoopL_cont_none (cfg : Config)
    (searchFn : SearchQuery → Except String SearchResult)
    (listener : Event → Option String) (query : CallerQuery)
    (fuel : Nat) (st : EngineState) (sa : Option String) (page : SearchResult)
    (hcanc : st.canceled = false)
    (hfn : searchFn (buildQuery cfg query sa) = Except.ok page)
    (hg : sizeGuardFires cfg.maxResults page.total = false)
    (hpe : (emitSeq listener
      ((recordCount st page.total).2 ++
        (deliverChunk cfg (recordCount st page.total).1 (chunkOf page)).2)).2 = none)
    (hc : (((chunkOf page).length == cfg.chunkSize) &&
      optTruthy (nextSearchAfterOf cfg (chunkOf page))) = true)
    (hrec : getBatchLoopL cfg searchFn listener query fuel
      (deliverChunk cfg (recordCount st page.total).1 (chunkOf page)).1
      (nextSearchAfterOf cfg (chunkOf page)) = none) :
    getBatchLoopL cfg searchFn listener query (fuel + 1) st sa = none := by
  simp [getBatchLoopL, hfn, hcanc, hg, hpe, hc, hrec]

theorem getBatchLoopL_cont_some (cfg : Config)
    (searchFn : SearchQuery → Except String SearchResult)
    (listener : Event → Option String) (query : CallerQuery)
    (fuel : Nat) (st : EngineState) (sa : Option String) (page : SearchResult)
    (stF : EngineState) (evsF : List Event) (escF : Bool)
    (hcanc : st.canceled = false)
    (hfn : searchFn (buildQuery cfg query sa) = Except.ok page)
    (hg : sizeGuardFires cfg.maxResults page.total = false)
    (hpe : (emitSeq listener
      ((recordCount st page.total).2 ++
        (deliverChunk cfg (recordCount st page.total).1 (chunkOf page)).2)).2 = none)
    (hc : (((chunkOf page).length == cfg.chunkSize) &&
      optTruthy (nextSearchAfterOf cfg (chunkOf page))) = true)
    (hrec : getBatchLoopL cfg searchFn listener query fuel
      (deliverChunk cfg (recordCount st page.total).1 (chunkOf page)).1
      (nextSearchAfterOf cfg (chunkOf page)) = some (stF, evsF, escF)) :
    getBatchLoopL cfg searchFn listener query (fuel + 1) st sa =
      some (stF,
        (emitSeq listener
          ((recordCount st page.total).2 ++
            (deliverChunk cfg (recordCount st page.total).1 (chunkOf page)).2)).1 ++ evsF,
        escF) := by
  simp [getBatchLoopL, hfn, hcanc, hg, hpe, hc, hrec]

theorem getBatchLoopL_stop_none (cfg : Config)
    (searchFn : SearchQuery → Except String SearchResult)
    (listener : Event → Option String) (query : CallerQuery)
    (fuel : Nat) (st : EngineState) (sa : Option String) (page : SearchResult)
    (hcanc : st.canceled = false)
    (hfn : searchFn (buildQuery cfg query sa) = Except.ok page)
    (hg : sizeGuardFires cfg.maxResults page.total = false)
    (hpe : (emitSeq listener
      ((recordCount st page.total).2 ++
        (deliverChunk cfg (recordCount st page.total).1 (chunkOf page)).2)).2 = none)
    (hc : (((chunkOf page).length == cfg.chunkSize) &&
      optTruthy (nextSearchAfterOf cfg (chunkOf page))) = false)
    (hfe : (emitSeq listener
      ((if cfg.incremental then ([] : List Event)
        else [Event.results
          (deliverChunk cfg (recordCount st page.total).1 (chunkOf page)).1.results]) ++
        [Event.endEvent])).2 = none) :
    getBatchLoopL cfg searchFn listener query (fuel + 1) st sa =
      some ((deliverChunk cfg (recordCount st page.total).1 (chunkOf page)).1,
        (emitSeq listener
          ((recordCount st page.total).2 ++
            (deliverChunk cfg (recordCount st page.total).1 (chunkOf page)).2)).1 ++
          (emitSeq listener
            ((if cfg.incremental then ([] : List Event)
              else [Event.results
                (deliverChunk cfg (recordCount st page.total).1 (chunkOf page)).1.results]) ++
              [Event.endEvent])).1,
        false) := by
  simp [getBatchLoopL, hfn, hcanc, hg, hpe, hc, hfe]

theorem getBatchLoopL_stop_throw (cfg : Config)
    (searchFn : SearchQuery → Except String SearchResult)
    (listener : Event → Option String) (query : CallerQuery)
    (fuel : Nat) (st : EngineState) (sa : Option String) (page : SearchResult)
    (ex : String)
    (hcanc : st.canceled = false)
    (hfn : searchFn (buildQuery cfg query sa) = Except.ok page)
    (hg : sizeGuardFires cfg.maxResults page.total = false)
    (hpe : (emitSeq listener
      ((recordCount st page.total).2 ++
        (deliverChunk cfg (recordCount st page.total).1 (chunkOf page)).2)).2 = none)
    (hc : (((chunkOf page).length == cfg.chunkSize) &&
      optTruthy (nextSearchAfterOf cfg (chunkOf page))) = false)
    (hfe : (emitSeq listener
      ((if cfg.incremental then ([] : List Event)
        else [Event.results
          (deliverChunk cfg (recordCount st page.total).1 (chunkOf page)).1.results]) ++
        [Event.endEvent])).2 = some ex) :
    getBatchLoopL cfg searchFn listener query (fuel + 1) st sa =
      some ((deliverChunk cfg (recordCount st page.total).1 (chunkOf page)).1,
        (emitSeq listener
          ((recordCount st page.total).2 ++
            (deliverChunk cfg (recordCount st page.total).1 (chunkOf page)).2)).1 ++
          (emitSeq listener
            ((if cfg.incremental then ([] : List Event)
              else [Event.results
                (deliverChunk cfg (recordCount st page.total).1 (chunkOf page)).1.results]) ++
              [Event.endEvent])).1 ++
          (runCatch listener
            (deliverChunk cfg (recordCount st page.total).1 (chunkOf page)).1 ex).1,
        (runCatch listener
          (deliverChunk cfg (recordCount st page.total).1 (chunkOf page)).1 ex).2) := by
  simp [getBatchLoopL, hfn, hcanc, hg, hpe, hc, hfe]

/-! ### Listener faults are caught by the fetch loop's error path -/

theorem getBatchLoopL_listener_fault (cfg : Config)
    (searchFn : SearchQuery → Except String SearchResult)
    (listener : Event → Option String) (query : CallerQuery)
    (hErr : ∀ m, listener (Event.error m) = none)
    (hEnd : listener Event.endEvent = none) :
    ∀ (fuel : Nat) (st : EngineState) (sa : Option String) (st' : EngineState)
      (evs : List Event) (escaped : Bool),
      st.canceled = false →
      getBatchLoopL cfg searchFn listener query fuel st sa = some (st', evs, escaped) →
      escaped = false ∧
      ∀ ex, firstThrown listener evs = some ex →
        ∃ pre, evs = pre ++ [Event.error ex, Event.endEvent] ∧
          countEvents isErrorEvent pre = 0 ∧ countEvents isEndEvent pre = 0 := by
  intro fuel
  induction fuel with
  | zero =>
    intro st sa st' evs escaped hcanc h
    simp [getBatchLoopL] at h
  | succ fuel ih =>
    intro st sa st' evs escaped hcanc h
    rcases hfn : searchFn (buildQuery cfg query sa) with e | page
    · -- the fetch fails: caught by the catch clause, whose emissions succeed
      rw [getBatchLoopL_fail cfg searchFn listener query fuel st sa e hcanc hfn,
        runCatch_clean listener st e hcanc hErr hEnd] at h
      simp only [Option.some.injEq, Prod.mk.injEq] at h
      obtain ⟨-, h2, h3⟩ := h
      subst h2; subst h3
      refine ⟨rfl, fun ex hft => ?_⟩
      simp [firstThrown, hErr, hEnd] at hft
    · cases hg : sizeGuardFires cfg.maxResults page.total with
      | true =>
        rw [getBatchLoopL_guard cfg searchFn listener query fuel st sa page hcanc
          hfn hg hErr hEnd] at h
        simp only [Option.some.injEq, Prod.mk.injEq] at h
        obtain ⟨-, h2, h3⟩ := h
        subst h2; subst h3
        refine ⟨rfl, fun ex hft => ?_⟩
        simp [firstThrown, hErr, hEnd] at hft
      | false =>
        have hdlcanc : (deliverChunk cfg (recordCount st page.total).1
            (chunkOf page)).1.canceled = false := by
          rw [deliverChunk_fst_canceled, recordCount_fst_canceled]; exact hcanc
        have hcleanErrIn : ∀ x ∈ (recordCount st page.total).2 ++
            (deliverChunk cfg (recordCount st page.total).1 (chunkOf page)).2,
            isErrorEvent x = false := by
          apply countEvents_eq_zero.mp
          rw [countEvents_append, recordCount_snd_count_error,
            deliverChunk_snd_count_error]
        have hcleanEndIn : ∀ x ∈ (recordCount st page.total).2 ++
            (deliverChunk cfg (recordCount st page.total).1 (chunkOf page)).2,
            isEndEvent x = false := by
          apply countEvents_eq_zero.mp
          rw [countEvents_append, recordCount_snd_count_endev,
            deliverChunk_snd_count_endev]
        rcases hpe : (emitSeq listener
            ((recordCount st page.total).2 ++
              (deliverChunk cfg (recordCount st page.total).1 (chunkOf page)).2)).2
          with - | ex0
        · -- the page emissions succeed
          obtain ⟨houtEq, hInClean⟩ := emitSeq_no_throw listener _ hpe
          cases hc : (((chunkOf page).length == cfg.chunkSize) &&
              optTruthy (nextSearchAfterOf cfg (chunkOf page))) with
          | true =>
            rcases hrecL : getBatchLoopL cfg searchFn listener query fuel
                (deliverChunk cfg (recordCount st page.total).1 (chunkOf page)).1
                (nextSearchAfterOf cfg (chunkOf page)) with - | ⟨stF, evsF, escF⟩
            · rw [getBatchLoopL_cont_none cfg searchFn listener query fuel st sa page
                hcanc hfn hg hpe hc hrecL] at h
              cases h
            · rw [getBatchLoopL_cont_some cfg searchFn listener query fuel st sa page
                stF evsF escF hcanc hfn hg hpe hc hrecL] at h
              simp only [Option.some.injEq, Prod.mk.injEq] at h
              obtain ⟨-, h2, h3⟩ := h
              subst h2; subst h3
              obtain ⟨ihEsc, ihShape⟩ :=
                ih _ (nextSearchAfterOf cfg (chunkOf page)) stF evsF escF hdlcanc hrecL
              refine ⟨ihEsc, fun ex hft => ?_⟩
              rw [houtEq] at hft ⊢
              rw [firstThrown_append_clean listener _ _ hInClean] at hft
              obtain ⟨pre', hpre', hErrC, hEndC⟩ := ihShape ex hft
              refine ⟨((recordCount st page.total).2 ++
                (deliverChunk cfg (recordCount st page.total).1 (chunkOf page)).2) ++ pre',
                by simp [hpre'], ?_, ?_⟩
              · rw [countEvents_append, hErrC]
                simp only [Nat.add_zero]
                exact countEvents_eq_zero.mpr hcleanErrIn
              · rw [countEvents_append, hEndC]
                simp only [Nat.add_zero]
                exact countEvents_eq_zero.mpr hcleanEndIn
          | false =>
            cases hinc : cfg.incremental with
            | true =>
              have hfe : (emitSeq listener
                  ((if cfg.incremental then ([] : List Event)
                    else [Event.results (deliverChunk cfg (recordCount st page.total).1
                      (chunkOf page)).1.results]) ++ [Event.endEvent])).2 = none := by
                simp [hinc, emitSeq, hEnd]
              rw [getBatchLoopL_stop_none cfg searchFn listener query fuel st sa page
                hcanc hfn hg hpe hc hfe] at h
              simp only [Option.some.injEq, Prod.mk.injEq] at h
              obtain ⟨-, h2, h3⟩ := h
              subst h2; subst h3
              obtain ⟨houtF, hFClean⟩ := emitSeq_no_throw listener _ hfe
              refine ⟨rfl, fun ex hft => ?_⟩
              rw [firstThrown_clean listener _ ?_] at hft
              · cases hft
              · intro x hx
                rcases List.mem_append.mp hx with hx1 | hx2
                · exact hInClean x (by rwa [houtEq] at hx1)
                · exact hFClean x (by rwa [houtF] at hx2)
            | false =>
              rcases hlr : listener (Event.results
                  (deliverChunk cfg (recordCount st page.total).1
                    (chunkOf page)).1.results) with - | exf
              · have hfe : (emitSeq listener
                    ((if cfg.incremental then ([] : List Event)
                      else [Event.results (deliverChunk cfg (recordCount st page.total).1
                        (chunkOf page)).1.results]) ++ [Event.endEvent])).2 = none := by
                  simp [hinc, emitSeq, hlr, hEnd]
                rw [getBatchLoopL_stop_none cfg searchFn listener query fuel st sa page
                  hcanc hfn hg hpe hc hfe] at h
                simp only [Option.some.injEq, Prod.mk.injEq] at h
                obtain ⟨-, h2, h3⟩ := h
                subst h2; subst h3
                obtain ⟨houtF, hFClean⟩ := emitSeq_no_throw listener _ hfe
                refine ⟨rfl, fun ex hft => ?_⟩
                rw [firstThrown_clean listener _ ?_] at hft
                · cases hft
                · intro x hx
                  rcases List.mem_append.mp hx with hx1 | hx2
                  · exact hInClean x (by rwa [houtEq] at hx1)
                  · exact hFClean x (by rwa [houtF] at hx2)
              · have hfe : (emitSeq listener
                    ((if cfg.incremental then ([] : List Event)
                      else [Event.results (deliverChunk cfg (recordCount st page.total).1
                        (chunkOf page)).1.results]) ++ [Event.endEvent])).2 = some exf := by
                  simp [hinc, emitSeq, hlr]
                have houtF : (emitSeq listener
                    ((if cfg.incremental then ([] : List Event)
                      else [Event.results (deliverChunk cfg (recordCount st page.total).1
                        (chunkOf page)).1.results]) ++ [Event.endEvent])).1 =
                    [Event.results (deliverChunk cfg (recordCount st page.total).1
                      (chunkOf page)).1.results] := by
                  simp [hinc, emitSeq, hlr]
                rw [getBatchLoopL_stop_throw cfg searchFn listener query fuel st sa page
                  exf hcanc hfn hg hpe hc hfe,
                  runCatch_clean listener _ exf hdlcanc hErr hEnd] at h
                simp only [Option.some.injEq, Prod.mk.injEq] at h
                obtain ⟨-, h2, h3⟩ := h
                subst h2; subst h3
                refine ⟨rfl, fun ex hft => ?_⟩
                rw [houtEq, houtF] at hft ⊢
                have hival : firstThrown listener
                    ((((recordCount st page.total).2 ++
                      (deliverChunk cfg (recordCount st page.total).1 (chunkOf page)).2) ++
                      [Event.results (deliverChunk cfg (recordCount st page.total).1
                        (chunkOf page)).1.results]) ++
                      [Event.error exf, Event.endEvent]) = some exf := by
                  rw [List.append_assoc ((recordCount st page.total).2 ++
                    (deliverChunk cfg (recordCount st page.total).1 (chunkOf page)).2)
                    [Event.results (deliverChunk cfg (recordCount st page.total).1
                      (chunkOf page)).1.results]
                    [Event.error exf, Event.endEvent],
                    firstThrown_append_clean listener _ _ hInClean,
                    List.singleton_append]
                  exact firstThrown_cons_throw listener _ _ exf hlr
                rw [hival] at hft
                injection hft with hex
                subst hex
                refine ⟨((recordCount st page.total).2 ++
                  (deliverChunk cfg (recordCount st page.total).1 (chunkOf page)).2) ++
                  [Event.results (deliverChunk cfg (recordCount st page.total).1
                    (chunkOf page)).1.results],
                  by simp, ?_, ?_⟩
                · rw [countEvents_append]
                  rw [countEvents_eq_zero.mpr hcleanErrIn]
                  rfl
                · rw [countEvents_append]
                  rw [countEvents_eq_zero.mpr hcleanEndIn]
                  rfl
        · -- a page emission throws: caught by the catch clause
          rw [getBatchLoopL_page_throw cfg searchFn listener query fuel st sa page
            ex0 hcanc hfn hg hpe,
            runCatch_clean listener _ ex0 hdlcanc hErr hEnd] at h
          simp only [Option.some.injEq, Prod.mk.injEq] at h
          obtain ⟨-, h2, h3⟩ := h
          subst h2; subst h3
          obtain ⟨pre0, e0, suf0, hsplit, hpre0clean, hthrow, hout⟩ :=
            emitSeq_throw listener _ ex0 hpe
          refine ⟨rfl, fun ex hft => ?_⟩
          rw [hout] at hft ⊢
          rw [List.append_assoc, firstThrown_append_clean listener _ _ hpre0clean,
            List.singleton_append,
            firstThrown_cons_throw listener _ _ ex0 hthrow] at hft
          injection hft with hex
          subst hex
          have hsub : ∀ x ∈ pre0 ++ [e0],
              x ∈ (recordCount st page.total).2 ++
                (deliverChunk cfg (recordCount st page.total).1 (chunkOf page)).2 := by
            intro x hx
            rw [hsplit]
            rcases List.mem_append.mp hx with h1 | h2
            · exact List.mem_append.mpr (Or.inl h1)
            · simp only [List.mem_singleton] at h2
              subst h2
              exact List.mem_append.mpr (Or.inr (List.mem_cons_self _ _))
          refine ⟨pre0 ++ [e0], rfl, ?_, ?_⟩
          · exact countEvents_eq_zero.mpr fun x hx => hcleanErrIn x (hsub x hx)
          · exact countEvents_eq_zero.mpr fun x hx => hcleanEndIn x (hsub x hx)

/-! ### Incremental and batch runs move in lockstep -/

theorem getBatchLoop_incremental_batch (cfg : Config)
    (searchFn : SearchQuery → Except String SearchResult) (query : CallerQuery) :
    ∀ (fuel i : Nat) (sa : Option String) (rc : Option Nat) (rI rB : List Item)
      (stI stB : EngineState) (evsI evsB : List Event)
      (reqsI reqsB : List SearchQuery),
      getBatchLoop { cfg with incremental := true } searchFn query noCancel fuel i
        ⟨false, rI, rc⟩ sa = some (stI, evsI, reqsI) →
      getBatchLoop { cfg with incremental := false } searchFn query noCancel fuel i
        ⟨false, rB, rc⟩ sa = some (stB, evsB, reqsB) →
      reqsI = reqsB ∧ hasErrorEvent evsI = hasErrorEvent evsB ∧
      resultsPayloads evsB =
        (if hasErrorEvent evsB then []
         else [rB ++ (resultsPayloads evsI).flatten]) := by
  intro fuel
  induction fuel with
  | zero =>
    intro i sa rc rI rB stI stB evsI evsB reqsI reqsB hI hB
    simp [getBatchLoop] at hI
  | succ fuel ih =>
    intro i sa rc rI rB stI stB evsI evsB reqsI reqsB hI hB
    rcases hfn : searchFn (buildQuery cfg query sa) with e | page
    · -- the fetch fails in both runs
      rw [getBatchLoop_fail { cfg with incremental := true } searchFn query fuel i
        ⟨false, rI, rc⟩ sa e rfl hfn] at hI
      rw [getBatchLoop_fail { cfg with incremental := false } searchFn query fuel i
        ⟨false, rB, rc⟩ sa e rfl hfn] at hB
      simp only [Option.some.injEq, Prod.mk.injEq] at hI hB
      obtain ⟨-, hI2, hI3⟩ := hI
      obtain ⟨-, hB2, hB3⟩ := hB
      subst hI2; subst hI3; subst hB2; subst hB3
      exact ⟨rfl, rfl, by simp [resultsPayloads, hasErrorEvent, isErrorEvent]⟩
    · cases hg : sizeGuardFires cfg.maxResults page.total with
      | true =>
        -- the guard fires in both runs
        rw [getBatchLoop_guardStop { cfg with incremental := true } searchFn query fuel i
          ⟨false, rI, rc⟩ sa page rfl hfn hg] at hI
        rw [getBatchLoop_guardStop { cfg with incremental := false } searchFn query fuel i
          ⟨false, rB, rc⟩ sa page rfl hfn hg] at hB
        simp only [Option.some.injEq, Prod.mk.injEq] at hI hB
        obtain ⟨-, hI2, hI3⟩ := hI
        obtain ⟨-, hB2, hB3⟩ := hB
        subst hI2; subst hI3; subst hB2; subst hB3
        exact ⟨rfl, rfl, by simp [resultsPayloads, hasErrorEvent, isErrorEvent]⟩
      | false =>
        cases hc : (((chunkOf page).length == cfg.chunkSize) &&
            optTruthy (nextSearchAfterOf cfg (chunkOf page))) with
        | false =>
          -- the session ends in both runs
          rw [getBatchLoop_stop { cfg with incremental := true } searchFn query fuel i
            ⟨false, rI, rc⟩ sa page rfl hfn hg hc] at hI
          rw [getBatchLoop_stop { cfg with incremental := false } searchFn query fuel i
            ⟨false, rB, rc⟩ sa page rfl hfn hg hc] at hB
          simp only [Option.some.injEq, Prod.mk.injEq] at hI hB
          obtain ⟨-, hI2, hI3⟩ := hI
          obtain ⟨-, hB2, hB3⟩ := hB
          subst hI2; subst hI3; subst hB2; subst hB3
          rcases rc with - | t0
          · refine ⟨rfl, ?_, ?_⟩ <;>
              simp [recordCount, deliverChunk, resultsPayloads,
                hasErrorEvent, isErrorEvent]
          · refine ⟨rfl, ?_, ?_⟩ <;>
              simp [recordCount, deliverChunk, resultsPayloads,
                hasErrorEvent, isErrorEvent]
        | true =>
          -- both runs recurse into the next batch with the same cursor
          have hnext : ∃ cursor, nextSearchAfterOf cfg (chunkOf page) = some cursor := by
            rcases hx : nextSearchAfterOf cfg (chunkOf page) with - | c
            · rw [hx] at hc; simp [optTruthy] at hc
            · exact ⟨c, rfl⟩
          obtain ⟨cursor, hnext⟩ := hnext
          rcases rc with - | t0
          · rcases hrecI : getBatchLoop { cfg with incremental := true } searchFn query
                noCancel fuel (i + 1) ⟨false, rI, some page.total⟩ (some cursor)
              with - | ⟨stF, evsF, reqsF⟩
            · rw [getBatchLoop_cont_none { cfg with incremental := true } searchFn query
                fuel i ⟨false, rI, none⟩ sa page cursor rfl hfn hg hc hnext hrecI] at hI
              cases hI
            · rw [getBatchLoop_cont_some { cfg with incremental := true } searchFn query
                fuel i ⟨false, rI, none⟩ sa page cursor stF evsF reqsF rfl hfn hg hc
                hnext hrecI] at hI
              rcases hrecB : getBatchLoop { cfg with incremental := false } searchFn query
                  noCancel fuel (i + 1)
                  ⟨false, rB ++ chunkOf page, some page.total⟩ (some cursor)
                with - | ⟨stG, evsG, reqsG⟩
              · rw [getBatchLoop_cont_none { cfg with incremental := false } searchFn query
                  fuel i ⟨false, rB, none⟩ sa page cursor rfl hfn hg hc hnext hrecB] at hB
                cases hB
              · rw [getBatchLoop_cont_some { cfg with incremental := false } searchFn query
                  fuel i ⟨false, rB, none⟩ sa page cursor stG evsG reqsG rfl hfn hg hc
                  hnext hrecB] at hB
                simp only [Option.some.injEq, Prod.mk.injEq] at hI hB
                obtain ⟨-, hI2, hI3⟩ := hI
                obtain ⟨-, hB2, hB3⟩ := hB
                subst hI2; subst hI3; subst hB2; subst hB3
                obtain ⟨ihReqs, ihErr, ihPay⟩ := ih (i + 1) (some cursor) (some page.total)
                  rI (rB ++ chunkOf page) stF stG evsF evsG reqsF reqsG hrecI hrecB
                have hpI : ((recordCount (⟨false, rI, none⟩ : EngineState) page.total).2 ++
                    (deliverChunk { cfg with incremental := true }
                      (recordCount (⟨false, rI, none⟩ : EngineState) page.total).1
                      (chunkOf page)).2) =
                    [Event.resultCount page.total, Event.results (chunkOf page)] := rfl
                have hpB : ((recordCount (⟨false, rB, none⟩ : EngineState) page.total).2 ++
                    (deliverChunk { cfg with incremental := false }
                      (recordCount (⟨false, rB, none⟩ : EngineState) page.total).1
                      (chunkOf page)).2) =
                    [Event.resultCount page.total] := rfl
                rw [hpI, hpB]
                refine ⟨by rw [show buildQuery { cfg with incremental := true } query sa =
                    buildQuery { cfg with incremental := false } query sa from rfl,
                    ihReqs], ?_, ?_⟩
                · simp only [List.cons_append, List.nil_append,
                    hasErrorEvent_cons_rc, hasErrorEvent_cons_results]
                  exact ihErr
                · simp only [List.cons_append, List.nil_append,
                    hasErrorEvent_cons_rc, hasErrorEvent_cons_results,
                    resultsPayloads_cons_rc, resultsPayloads_cons_results,
                    List.flatten_cons]
                  rw [ihPay]
                  cases he : hasErrorEvent evsG with
                  | true => simp [he]
                  | false => simp [he, List.append_assoc]
          · rcases hrecI : getBatchLoop { cfg with incremental := true } searchFn query
                noCancel fuel (i + 1) ⟨false, rI, some t0⟩ (some cursor)
              with - | ⟨stF, evsF, reqsF⟩
            · rw [getBatchLoop_cont_none { cfg with incremental := true } searchFn query
                fuel i ⟨false, rI, some t0⟩ sa page cursor rfl hfn hg hc hnext hrecI] at hI
              cases hI
            · rw [getBatchLoop_cont_some { cfg with incremental := true } searchFn query
                fuel i ⟨false, rI, some t0⟩ sa page cursor stF evsF reqsF rfl hfn hg hc
                hnext hrecI] at hI
              rcases hrecB : getBatchLoop { cfg with incremental := false } searchFn query
                  noCancel fuel (i + 1)
                  ⟨false, rB ++ chunkOf page, some t0⟩ (some cursor)
                with - | ⟨stG, evsG, reqsG⟩
              · rw [getBatchLoop_cont_none { cfg with incremental := false } searchFn query
                  fuel i ⟨false, rB, some t0⟩ sa page cursor rfl hfn hg hc hnext hrecB] at hB
                cases hB
              · rw [getBatchLoop_cont_some { cfg with incremental := false } searchFn query
                  fuel i ⟨false, rB, some t0⟩ sa page cursor stG evsG reqsG rfl hfn hg hc
                  hnext hrecB] at hB
                simp only [Option.some.injEq, Prod.mk.injEq] at hI hB
                obtain ⟨-, hI2, hI3⟩ := hI
                obtain ⟨-, hB2, hB3⟩ := hB
                subst hI2; subst hI3; subst hB2; subst hB3
                obtain ⟨ihReqs, ihErr, ihPay⟩ := ih (i + 1) (some cursor) (some t0)
                  rI (rB ++ chunkOf page) stF stG evsF evsG reqsF reqsG hrecI hrecB
                have hpI : ((recordCount (⟨false, rI, some t0⟩ : EngineState) page.total).2 ++
                    (deliverChunk { cfg with incremental := true }
                      (recordCount (⟨false, rI, some t0⟩ : EngineState) page.total).1
                      (chunkOf page)).2) =
                    [Event.results (chunkOf page)] := rfl
                have hpB : ((recordCount (⟨false, rB, some t0⟩ : EngineState) page.total).2 ++
                    (deliverChunk { cfg with incremental := false }
                      (recordCount (⟨false, rB, some t0⟩ : EngineState) page.total).1
                      (chunkOf page)).2) =
                    ([] : List Event) := rfl
                rw [hpI, hpB]
                refine ⟨by rw [show buildQuery { cfg with incremental := true } query sa =
                    buildQuery { cfg with incremental := false } query sa from rfl,
                    ihReqs], ?_, ?_⟩
                · simp only [List.cons_append, List.nil_append,
                    hasErrorEvent_cons_results]
                  exact ihErr
                · simp only [List.cons_append, List.nil_append,
                    hasErrorEvent_cons_results,
                    resultsPayloads_cons_results, List.flatten_cons]
                  rw [ihPay]
                  cases he : hasErrorEvent evsG with
                  | true => simp [he]
                  | false => simp [he, List.append_assoc]

/-! ### Bridging a full session to the loop -/

theorem runSession_eq_loop (cfg : Config)
    (searchFn : SearchQuery → Except String SearchResult) (query : CallerQuery)
    (fuel : Nat) :
    runSession cfg searchFn query fuel =
      getBatchLoop cfg searchFn query noCancel fuel 0 initialState none := rfl

/-! ## The claims -/

/-- Claim C1, counterexample: in batch mode a session whose only fetch fails
emits no `results` event at all, not exactly one as the claim demands: with
`incremental = false` and a failing search function the trace is
`[error, end]`, with zero `results` events. -/
theorem claim_C1_counterexample :
    cfgOneBatch.incremental = false ∧
    runSession cfgOneBatch fnFail emptyQuery 1 =
      some (initialState,
        [Event.error "network failure", Event.endEvent],
        [buildQuery cfgOneBatch emptyQuery none]) ∧
    countEvents isResultsEvent
      [Event.error "network failure", Event.endEvent] = 0 :=
  ⟨rfl, rfl, rfl⟩

/-- Claim C1, amended: for every completed session without cancellation the
trace is well formed: at most one `resultCount` first, then only `results`
events, then an optional `error` immediately followed by the single terminal
`end`; in batch mode there is exactly one `results` event when the session
ends without error and zero otherwise, and in incremental mode one `results`
event per delivered page (every requested page except a failing or guarded
last one). -/
theorem claim_C1_amended (cfg : Config)
    (searchFn : SearchQuery → Except String SearchResult) (query : CallerQuery)
    (fuel : Nat) (st' : EngineState) (evs : List Event) (reqs : List SearchQuery)
    (h : runSession cfg searchFn query fuel = some (st', evs, reqs)) :
    wellFormedTrace evs = true ∧
    countEvents isResultCountEvent evs ≤ 1 ∧
    (∃ pre, evs = pre ++ [Event.endEvent] ∧ countEvents isEndEvent pre = 0) ∧
    (cfg.incremental = false →
      countEvents isResultsEvent evs = if hasErrorEvent evs then 0 else 1) ∧
    (cfg.incremental = true →
      countEvents isResultsEvent evs =
        if hasErrorEvent evs then reqs.length - 1 else reqs.length) := by
  have h' : getBatchLoop cfg searchFn query noCancel fuel 0 initialState none =
      some (st', evs, reqs) := h
  obtain ⟨hA, -, hC, hD, -⟩ :=
    getBatchLoop_trace_shape cfg searchFn query fuel 0 initialState none
      st' evs reqs rfl h'
  have hwf := hA rfl
  obtain ⟨hle, hend⟩ := wellFormedTrace_shape hwf
  exact ⟨hwf, hle, hend, hC, hD⟩

/-- Claim C1, witness: the three-item two-page example produces a well-formed
trace. -/
theorem claim_C1_witness :
    wellFormedTrace [Event.resultCount 3, Event.results [itemOne, itemTwo],
      Event.results [itemThree], Event.endEvent] = true :=
  (claim_C1_amended cfgTwo fnThreeItems emptyQuery 5 _ _ _ rfl).1

/-- Claim C2, counterexample: when the second page's fetch fails, the
incremental run has already emitted the first page but the batch run emits no
`results` event at all, so the concatenation of the incremental payloads
(`[itemOne]`) does not equal the payload of any `results` event of the batch
run (there is none). -/
theorem claim_C2_counterexample :
    runSession cfgOne fnPageThenFail emptyQuery 5 =
      some ({ canceled := false, results := [], resultCount := some 2 },
        [Event.resultCount 2, Event.results [itemOne], Event.error "boom",
          Event.endEvent],
        [buildQuery cfgOne emptyQuery none,
          buildQuery cfgOne emptyQuery (some "2024-01-01")]) ∧
    runSession cfgOneBatch fnPageThenFail emptyQuery 5 =
      some ({ canceled := false, results := [itemOne], resultCount := some 2 },
        [Event.resultCount 2, Event.error "boom", Event.endEvent],
        [buildQuery cfgOneBatch emptyQuery none,
          buildQuery cfgOneBatch emptyQuery (some "2024-01-01")]) ∧
    resultsPayloads [Event.resultCount 2, Event.error "boom", Event.endEvent]
      = [] ∧
    (resultsPayloads [Event.resultCount 2, Event.results [itemOne],
      Event.error "boom", Event.endEvent]).flatten = [itemOne] :=
  ⟨rfl, rfl, rfl, rfl⟩

/-- Claim C2, amended: for sessions that terminate without an error event,
the incremental and batch runs issue the same requests, and the single
`results` payload of the batch run equals, in order, the concatenation of all
`results` payloads of the incremental run. -/
theorem claim_C2_amended (cfg : Config)
    (searchFn : SearchQuery → Except String SearchResult) (query : CallerQuery)
    (fuel : Nat) (stI stB : EngineState) (evsI evsB : List Event)
    (reqsI reqsB : List SearchQuery)
    (hI : runSession { cfg with incremental := true } searchFn query fuel =
      some (stI, evsI, reqsI))
    (hB : runSession { cfg with incremental := false } searchFn query fuel =
      some (stB, evsB, reqsB))
    (hnoerr : hasErrorEvent evsB = false) :
    reqsI = reqsB ∧ hasErrorEvent evsI = false ∧
    resultsPayloads evsB = [(resultsPayloads evsI).flatten] := by
  have hI' : getBatchLoop { cfg with incremental := true } searchFn query noCancel
      fuel 0 ⟨false, [], none⟩ none = some (stI, evsI, reqsI) := hI
  have hB' : getBatchLoop { cfg with incremental := false } searchFn query noCancel
      fuel 0 ⟨false, [], none⟩ none = some (stB, evsB, reqsB) := hB
  obtain ⟨h1, h2, h3⟩ := getBatchLoop_incremental_batch cfg searchFn query fuel 0
    none none [] [] stI stB evsI evsB reqsI reqsB hI' hB'
  rw [hnoerr] at h3
  refine ⟨h1, by rw [h2, hnoerr], by simpa using h3⟩

/-- Claim C2, witness: on the three-item two-page example the batch payload
is the concatenation of the two incremental payloads. -/
theorem claim_C2_witness :
    resultsPayloads [Event.resultCount 3,
      Event.results [itemOne, itemTwo, itemThree], Event.endEvent] =
      [(resultsPayloads [Event.resultCount 3, Event.results [itemOne, itemTwo],
        Event.results [itemThree], Event.endEvent]).flatten] :=
  (claim_C2_amended cfgTwo fnThreeItems emptyQuery 5 _ _
    [Event.resultCount 3, Event.results [itemOne, itemTwo],
      Event.results [itemThree], Event.endEvent]
    [Event.resultCount 3, Event.results [itemOne, itemTwo, itemThree],
      Event.endEvent] _ _ rfl rfl rfl).2.2

/-- Claim C3, counterexample: with `maxResults = 0` the guard never fires,
because `this._maxResults && …` is falsy for `0`: a session whose first page
reports `total = 1 > 0` still delivers its items and ends without any error
event, contradicting the claim for `K = 0`. -/
theorem claim_C3_counterexample :
    cfgMaxZero.maxResults = some 0 ∧
    fnOneShortPage (buildQuery cfgMaxZero emptyQuery none) =
      Except.ok { total := 1, rows := [itemOne] } ∧
    runSession cfgMaxZero fnOneShortPage emptyQuery 3 =
      some ({ canceled := false, results := [], resultCount := some 1 },
        [Event.resultCount 1, Event.results [itemOne], Event.endEvent],
        [buildQuery cfgMaxZero emptyQuery none]) ∧
    countEvents isErrorEvent
      [Event.resultCount 1, Event.results [itemOne], Event.endEvent] = 0 ∧
    countEvents isResultsEvent
      [Event.resultCount 1, Event.results [itemOne], Event.endEvent] = 1 :=
  ⟨rfl, rfl, rfl, rfl, rfl⟩

/-- Claim C3, amended: for every configured `maxResults = K` with `K ≠ 0`
(a truthy value), a session whose first page reports `total > K` emits
exactly the error with the fixed descriptive message followed by `end`, emits
no `results` event, and issues no further request. -/
theorem claim_C3_amended (cfg : Config)
    (searchFn : SearchQuery → Except String SearchResult) (query : CallerQuery)
    (K fuel : Nat) (r : SearchResult) (st' : EngineState) (evs : List Event)
    (reqs : List SearchQuery)
    (hK : cfg.maxResults = some K) (hK0 : K ≠ 0)
    (hok : searchFn (buildQuery cfg query none) = Except.ok r)
    (htot : K < r.total)
    (hrun : runSession cfg searchFn query fuel = some (st', evs, reqs)) :
    evs = [Event.error maxResultsMessage, Event.endEvent] ∧
    countEvents isResultsEvent evs = 0 ∧
    reqs = [buildQuery cfg query none] := by
  have hg : sizeGuardFires cfg.maxResults r.total = true := by
    simp only [sizeGuardFires, maxResultsTruthy, hK, Bool.and_eq_true,
      decide_eq_true_eq]
    exact ⟨by simpa using hK0, by simpa using htot⟩
  have h' : getBatchLoop cfg searchFn query noCancel fuel 0 initialState none =
      some (st', evs, reqs) := hrun
  cases fuel with
  | zero => simp [getBatchLoop] at h'
  | succ fuel =>
    rw [getBatchLoop_guardStop cfg searchFn query fuel 0 initialState none r
      rfl hok hg] at h'
    simp only [Option.some.injEq, Prod.mk.injEq] at h'
    obtain ⟨-, h2, h3⟩ := h'
    subst h2; subst h3
    exact ⟨rfl, rfl, rfl⟩

/-- Claim C3, witness: with `maxResults = 2` and a first page reporting
`total = 3`, the session emits only the guard error and `end`. -/
theorem claim_C3_witness :
    ([Event.error maxResultsMessage, Event.endEvent] : List Event) =
      [Event.error maxResultsMessage, Event.endEvent] ∧
    countEvents isResultsEvent
      [Event.error maxResultsMessage, Event.endEvent] = 0 ∧
    ([buildQuery cfgMaxTwo emptyQuery none] : List SearchQuery) =
      [buildQuery cfgMaxTwo emptyQuery none] :=
  claim_C3_amended cfgMaxTwo fnThreeItems emptyQuery 2 3
    { total := 3, rows := [itemOne, itemTwo] } _ _ _ rfl (by decide) rfl
    (by decide) rfl

/-- Claim C4: in every completed session without cancellation the first
request is the merged query with no `search_after`, and the request list is a
continuation chain: after each request a next one is issued exactly when the
page was delivered, its combined chunk's length equals the configured
`chunkSize`, and the sort-field value of the chunk's last item is truthy, in
which case the next request carries `search_after` equal to that value. -/
theorem claim_C4 (cfg : Config)
    (searchFn : SearchQuery → Except String SearchResult) (query : CallerQuery)
    (fuel : Nat) (st' : EngineState) (evs : List Event) (reqs : List SearchQuery)
    (h : runSession cfg searchFn query fuel = some (st', evs, reqs)) :
    reqs.head? = some (buildQuery cfg query none) ∧
    (buildQuery cfg query none).search_after = none ∧
    reqChain cfg searchFn query reqs := by
  have h' : getBatchLoop cfg searchFn query noCancel fuel 0 initialState none =
      some (st', evs, reqs) := h
  exact ⟨getBatchLoop_head cfg searchFn query noCancel fuel 0 initialState none
      st' evs reqs h',
    buildQuery_search_after_none cfg query,
    getBatchLoop_reqChain cfg searchFn query fuel 0 initialState none
      st' evs reqs rfl h'⟩

/-- Claim C4, witness: the three-item example issues two chained requests,
the second carrying the first chunk's last sort value as cursor. -/
theorem claim_C4_witness :
    reqChain cfgTwo fnThreeItems emptyQuery
      [buildQuery cfgTwo emptyQuery none,
       buildQuery cfgTwo emptyQuery (some "2024-01-02")] :=
  (claim_C4 cfgTwo fnThreeItems emptyQuery 5 _ _
    [buildQuery cfgTwo emptyQuery none,
      buildQuery cfgTwo emptyQuery (some "2024-01-02")] rfl).2.2

/-- Claim C5: when `cancel()` runs while fetch `k` of a session is in flight
(and was not called earlier), the session's trace ends with the single `end`
emitted synchronously by `cancel()`, nothing is emitted after it, no error
event appears, and the discarded resolution triggers no further request. -/
theorem claim_C5 (cfg : Config)
    (searchFn : SearchQuery → Except String SearchResult) (query : CallerQuery)
    (cancelDuring : Nat → Bool) (fuel k : Nat) (st' : EngineState)
    (evs : List Event) (reqs : List SearchQuery)
    (h : get cfg searchFn query cancelDuring fuel initialState =
      some (st', evs, reqs))
    (hk : cancelDuring k = true)
    (hbefore : ∀ j, j < k → cancelDuring j = false)
    (hreach : k < reqs.length) :
    reqs.length = k + 1 ∧
    (∃ pre, evs = pre ++ [Event.endEvent] ∧ countEvents isEndEvent pre = 0) ∧
    countEvents isErrorEvent evs = 0 := by
  have h' : getBatchLoop cfg searchFn query cancelDuring fuel 0 initialState none =
      some (st', evs, reqs) := h
  obtain ⟨h1, h2, h3⟩ := getBatchLoop_cancel_shape cfg searchFn query cancelDuring
    fuel 0 initialState none st' evs reqs k rfl h' (Nat.zero_le k) hk
    (fun j _ hj => hbefore j hj) (by simpa using hreach)
  exact ⟨by simpa using h1, h2, h3⟩

/-- Claim C5, witness: cancelling during the second fetch of an unbounded
result set ends the trace right after the first page's events. -/
theorem claim_C5_witness :
    ([buildQuery cfgOne emptyQuery none,
      buildQuery cfgOne emptyQuery (some "2024-01-01")] : List SearchQuery).length
      = 1 + 1 ∧
    (∃ pre, [Event.resultCount 5, Event.results [itemOne], Event.endEvent] =
      pre ++ [Event.endEvent] ∧ countEvents isEndEvent pre = 0) ∧
    countEvents isErrorEvent
      [Event.resultCount 5, Event.results [itemOne], Event.endEvent] = 0 :=
  claim_C5 cfgOne fnUnbounded emptyQuery cancelDuringSecondFetch 5 1 _
    [Event.resultCount 5, Event.results [itemOne], Event.endEvent]
    [buildQuery cfgOne emptyQuery none,
      buildQuery cfgOne emptyQuery (some "2024-01-01")] rfl rfl
    (fun j hj => by
      have hj0 : j = 0 := Nat.lt_one_iff.mp hj
      subst hj0
      rfl)
    (by decide)

/-- Claim C6, counterexample: `get()` does not reset the canceled flag: after
a `cancel()`, a new `get(query)` runs its fetch but discards the resolution,
emitting nothing at all even though the search function returns data, and the
session's canceled flag is still `true` rather than `false`. -/
theorem claim_C6_counterexample :
    (cancel initialState).1.canceled = true ∧
    get cfgTwo fnThreeItems emptyQuery noCancel 5 (cancel initialState).1 =
      some ({ canceled := true, results := [], resultCount := none }, [],
        [buildQuery cfgTwo emptyQuery none]) ∧
    countEvents isResultsEvent [] = 0 :=
  ⟨rfl, rfl, rfl⟩

/-- Claim C6, amended: `get()` resets the accumulated results and the result
count but not the canceled flag, so every session started after a `cancel()`
on the same instance keeps `canceled = true`, issues its first request, and
then discards the resolution without emitting any event. -/
theorem claim_C6_amended (cfg : Config)
    (searchFn : SearchQuery → Except String SearchResult) (query : CallerQuery)
    (fuel : Nat) (st : EngineState) :
    get cfg searchFn query noCancel (fuel + 1) (cancel st).1 =
      some ({ canceled := true, results := [], resultCount := none },
        [], [buildQuery cfg query none]) :=
  getBatchLoop_canceled cfg searchFn query fuel 0
    { (cancel st).1 with results := [], resultCount := none } none rfl

/-- Claim C7: in every session without cancellation whose first fetch
succeeds and is not stopped by the size guard, the very first emitted event
is `resultCount` carrying the first page's `total`, and no second
`resultCount` event is ever emitted. -/
theorem claim_C7 (cfg : Config)
    (searchFn : SearchQuery → Except String SearchResult) (query : CallerQuery)
    (fuel : Nat) (st' : EngineState) (evs : List Event) (reqs : List SearchQuery)
    (r : SearchResult)
    (hrun : runSession cfg searchFn query fuel = some (st', evs, reqs))
    (hok : searchFn (buildQuery cfg query none) = Except.ok r)
    (hguard : sizeGuardFires cfg.maxResults r.total = false) :
    evs.head? = some (Event.resultCount r.total) ∧
    countEvents isResultCountEvent evs = 1 := by
  have h' : getBatchLoop cfg searchFn query noCancel fuel 0 initialState none =
      some (st', evs, reqs) := hrun
  exact getBatchLoop_first_rc cfg searchFn query fuel 0 initialState none
    st' evs reqs r rfl rfl h' hok hguard

/-- Claim C7, witness: the three-item example emits `resultCount 3` first and
only once, although the second page also reports a total. -/
theorem claim_C7_witness :
    ([Event.resultCount 3, Event.results [itemOne, itemTwo],
      Event.results [itemThree], Event.endEvent] : List Event).head? =
      some (Event.resultCount 3) ∧
    countEvents isResultCountEvent
      [Event.resultCount 3, Event.results [itemOne, itemTwo],
        Event.results [itemThree], Event.endEvent] = 1 :=
  claim_C7 cfgTwo fnThreeItems emptyQuery 5 _
    [Event.resultCount 3, Event.results [itemOne, itemTwo],
      Event.results [itemThree], Event.endEvent] _
    { total := 3, rows := [itemOne, itemTwo] } rfl rfl rfl

/-- Claim C8: if the search function's call for some page of a session
(without cancellation) fails, that page is the session's last request — no
retry and no further page — and the trace ends with exactly one `error`
event carrying that failure immediately followed by the terminal `end`. -/
theorem claim_C8 (cfg : Config)
    (searchFn : SearchQuery → Except String SearchResult) (query : CallerQuery)
    (fuel : Nat) (st' : EngineState) (evs : List Event) (reqs : List SearchQuery)
    (hrun : runSession cfg searchFn query fuel = some (st', evs, reqs))
    (j : Nat) (hj : j < reqs.length) (e : String)
    (hfail : searchFn (reqs.get ⟨j, hj⟩) = Except.error e) :
    j + 1 = reqs.length ∧
    ∃ pre, evs = pre ++ [Event.error e, Event.endEvent] ∧
      countEvents isErrorEvent pre = 0 ∧ countEvents isEndEvent pre = 0 := by
  have h' : getBatchLoop cfg searchFn query noCancel fuel 0 initialState none =
      some (st', evs, reqs) := hrun
  exact getBatchLoop_error_terminal cfg searchFn query fuel 0 initialState none
    st' evs reqs rfl h' j hj e hfail

/-- Claim C8, witness: a failure on the second page terminates the session
with `error "boom"`, `end`, after the first page's events. -/
theorem claim_C8_witness :
    1 + 1 = ([buildQuery cfgOne emptyQuery none,
      buildQuery cfgOne emptyQuery (some "2024-01-01")] : List SearchQuery).length ∧
    ∃ pre, [Event.resultCount 2, Event.results [itemOne], Event.error "boom",
      Event.endEvent] = pre ++ [Event.error "boom", Event.endEvent] ∧
      countEvents isErrorEvent pre = 0 ∧ countEvents isEndEvent pre = 0 :=
  claim_C8 cfgOne fnPageThenFail emptyQuery 5 _
    [Event.resultCount 2, Event.results [itemOne], Event.error "boom",
      Event.endEvent]
    [buildQuery cfgOne emptyQuery none,
      buildQuery cfgOne emptyQuery (some "2024-01-01")] rfl 1 (by decide)
    "boom" rfl

/-- Claim C9: a caller-supplied `limit` overrides the engine's default in the
physical request, while the continuation test still compares the chunk length
against the configured `chunkSize`; hence, provided the search function
honours the requested `limit`, a caller limit strictly below `chunkSize`
means the session never fetches a second page. -/
theorem claim_C9 (cfg : Config)
    (searchFn : SearchQuery → Except String SearchResult) (query : CallerQuery)
    (L fuel : Nat) (st' : EngineState) (evs : List Event)
    (reqs : List SearchQuery)
    (hq : query.limit = some L)
    (hL : L < cfg.chunkSize)
    (hfn : ∀ r, searchFn (buildQuery cfg query none) = Except.ok r →
      (chunkOf r).length ≤ L)
    (hrun : runSession cfg searchFn query fuel = some (st', evs, reqs)) :
    (buildQuery cfg query none).limit = L ∧
    reqs = [buildQuery cfg query none] ∧
    ∀ req ∈ reqs, req.limit = L := by
  have hlim : (buildQuery cfg query none).limit = L := by
    simp [buildQuery, optTruthy, hq]
  have h' : getBatchLoop cfg searchFn query noCancel fuel 0 initialState none =
      some (st', evs, reqs) := hrun
  have hreqs : reqs = [buildQuery cfg query none] := by
    cases fuel with
    | zero => simp [getBatchLoop] at h'
    | succ fuel =>
      rcases hfn0 : searchFn (buildQuery cfg query none) with e | page
      · rw [getBatchLoop_fail cfg searchFn query fuel 0 initialState none e
          rfl hfn0] at h'
        simp only [Option.some.injEq, Prod.mk.injEq] at h'
        exact h'.2.2.symm
      · cases hg : sizeGuardFires cfg.maxResults page.total with
        | true =>
          rw [getBatchLoop_guardStop cfg searchFn query fuel 0 initialState none
            page rfl hfn0 hg] at h'
          simp only [Option.some.injEq, Prod.mk.injEq] at h'
          exact h'.2.2.symm
        | false =>
          have hchunk : (chunkOf page).length ≤ L := hfn page hfn0
          have hcne : (((chunkOf page).length == cfg.chunkSize)) = false := by
            simp only [beq_eq_false_iff_ne, ne_eq]
            omega
          have hc : (((chunkOf page).length == cfg.chunkSize) &&
              optTruthy (nextSearchAfterOf cfg (chunkOf page))) = false := by
            rw [hcne]
            rfl
          rw [getBatchLoop_stop cfg searchFn query fuel 0 initialState none
            page rfl hfn0 hg hc] at h'
          simp only [Option.some.injEq, Prod.mk.injEq] at h'
          exact h'.2.2.symm
  refine ⟨hlim, hreqs, ?_⟩
  intro req hreq
  rw [hreqs, List.mem_singleton] at hreq
  subst hreq
  exact hlim

/-- Claim C9, witness: with `chunkSize = 2`, a caller limit of one, and a
limit-honouring search function over ten matches, only one request is ever
issued. -/
theorem claim_C9_witness :
    (buildQuery cfgTwo limitOneQuery none).limit = 1 ∧
    ([buildQuery cfgTwo limitOneQuery none] : List SearchQuery) =
      [buildQuery cfgTwo limitOneQuery none] ∧
    ∀ req ∈ ([buildQuery cfgTwo limitOneQuery none] : List SearchQuery),
      req.limit = 1 :=
  claim_C9 cfgTwo fnHonoursLimit limitOneQuery 1 3 _ _
    [buildQuery cfgTwo limitOneQuery none] rfl (by decide)
    (fun r h => by
      injection h with h2
      rw [← h2]
      decide) rfl

/-- Claim C10: if the event sink's handlers for `resultCount` or `results`
may throw but those for `error` and `end` do not, then no handler exception
ever escapes the engine (it is caught by the fetch loop's catch clause), and
whenever some handler threw during the session the trace ends with exactly
one `error` event carrying that first exception immediately followed by the
terminal `end` — the same terminal shape as a search-function failure. -/
theorem claim_C10 (cfg : Config)
    (searchFn : SearchQuery → Except String SearchResult)
    (listener : Event → Option String) (query : CallerQuery)
    (fuel : Nat) (st' : EngineState) (evs : List Event) (escaped : Bool)
    (hErr : ∀ m, listener (Event.error m) = none)
    (hEnd : listener Event.endEvent = none)
    (hrun : runSessionL cfg searchFn listener query fuel =
      some (st', evs, escaped)) :
    escaped = false ∧
    ∀ ex, firstThrown listener evs = some ex →
      ∃ pre, evs = pre ++ [Event.error ex, Event.endEvent] ∧
        countEvents isErrorEvent pre = 0 ∧ countEvents isEndEvent pre = 0 := by
  have h' : getBatchLoopL cfg searchFn listener query fuel initialState none =
      some (st', evs, escaped) := hrun
  exact getBatchLoopL_listener_fault cfg searchFn listener query hErr hEnd
    fuel initialState none st' evs escaped rfl h'

/-- Claim C10, witness: a `results` handler that throws turns the session
into `resultCount`, `results`, `error "listener exception"`, `end`, with
nothing escaping. -/
theorem claim_C10_witness :
    ∃ pre, ([Event.resultCount 3, Event.results [itemOne, itemTwo],
      Event.error "listener exception", Event.endEvent] : List Event) =
      pre ++ [Event.error "listener exception", Event.endEvent] ∧
      countEvents isErrorEvent pre = 0 ∧ countEvents isEndEvent pre = 0 :=
  (claim_C10 cfgTwo fnThreeItems throwingResultsListener emptyQuery 5 _
    [Event.resultCount 3, Event.results [itemOne, itemTwo],
      Event.error "listener exception", Event.endEvent] _
    (fun _ => rfl) rfl rfl).2 "listener exception" rfl

end SearchClientSpec
